import Mathlib

/-!
# Verification of the dyad-channel coordination core

A shallow embedding, in Lean 4, of the negotiation and dispatch engine of the
`dyad-channel` plugin:

* `src/types-coordination.ts` — data model and filter thresholds;
* `src/coordination.ts` — the pure coordination filter, keyword Jaccard
  similarity, micro-proposal generation and the round state machine;
* the channel plugin (`onMessage` hold / `onDispatchDecision` apply, the
  backstop, defer-backup and synthesis-wait paths) — modelled as an explicit
  event-step system on a per-message holder state;
* `src/supabase-bus.ts` — the 5-second poll safety net with boot-time
  quarantine and CAS row claims.

Numbers (confidences, thresholds) are embedded as rationals; JavaScript `Map`s
become functions into `Option`; timers become armed/cleared flags consumed by
explicit firing events; awaited external calls become oracle parameters.
-/

namespace Dyad

/-! ## Data model (`src/types-coordination.ts`) -/

/-- `MicroProposal` — an agent's compact self-assessment for a round.
`builds_on_other` is optional in the source (`builds_on_other?: boolean`). -/
structure MicroProposal where
  angle : String
  confidence : ℚ
  covers : List String
  solo_sufficient : Bool
  builds_on_other : Option Bool := none
deriving Repr, DecidableEq

/-- JavaScript truthiness of the optional `builds_on_other` field:
`undefined` is falsy, otherwise the boolean itself. -/
def MicroProposal.buildsOn (p : MicroProposal) : Bool :=
  p.builds_on_other.getD false

/-- `DispatchMode` — `"solo" | "parallel" | "synthesis"`. -/
inductive DispatchMode where
  | solo
  | parallel
  | synthesis
deriving Repr, DecidableEq

/-- `FilterResult` — output of the pure coordination filter.  The source always
populates `runnerUp`, and `proposals` is a two-entry record keyed by bot name
(embedded as an association list in insertion order). -/
structure FilterResult where
  mode : DispatchMode
  winner : String
  runnerUp : Option String
  reason : String
  proposals : List (String × MicroProposal)
deriving Repr, DecidableEq

/-- Filter thresholds from `src/types-coordination.ts`. -/
def CONFIDENCE_EPSILON : ℚ := 1/100

def CONFIDENCE_GAP_THRESHOLD : ℚ := 3/10

def ANGLE_OVERLAP_THRESHOLD : ℚ := 1/2

def HIGH_CONFIDENCE_THRESHOLD : ℚ := 1/2

def LOW_CONFIDENCE_THRESHOLD : ℚ := 3/10

def SYNTHESIS_CONFIDENCE_THRESHOLD : ℚ := 7/10

def MAX_COORDINATION_DEPTH : Nat := 6

def COORDINATION_PROTOCOL_VERSION : String := "dyad-coord-v2"

/-! ## Keyword Jaccard similarity (`coordination.ts`, `angleSimilarity`) -/

/-- Whitespace splitting of `String.prototype.split(/\s+/)`: tokens are the
maximal whitespace-free runs.  (`/\s+/` can additionally yield one empty
leading token, which the length filter of `extractKeywords` discards, so
empty tokens are dropped here directly.) -/
def splitWsAux : List Char → List Char → List (List Char)
  | [], acc => if acc.isEmpty then [] else [acc.reverse]
  | c :: rest, acc =>
    if c.isWhitespace then
      if acc.isEmpty then splitWsAux rest [] else acc.reverse :: splitWsAux rest []
    else splitWsAux rest (c :: acc)

/-- `extractKeywords` inside `angleSimilarity`: lowercase
`angle ++ " " ++ covers.join(" ")` (per-character, modelling
`toLowerCase()`), split on whitespace, keep tokens of length greater than
two, collect into a set. -/
def extractKeywords (p : MicroProposal) : Finset String :=
  (((splitWsAux ((p.angle ++ " " ++ String.intercalate " " p.covers).data.map
        Char.toLower) []).map
      (fun t => String.mk t)).filter (fun w => w.length > 2)).toFinset

/-- `angleSimilarity` — keyword Jaccard similarity between two proposals. -/
def angleSimilarity (a b : MicroProposal) : ℚ :=
  let aWords := extractKeywords a
  let bWords := extractKeywords b
  if aWords.card = 0 ∧ bWords.card = 0 then 1
  else if aWords.card = 0 ∨ bWords.card = 0 then 0
  else
    let intersection := (aWords ∩ bWords).card
    let union := (aWords ∪ bWords).card
    if union > 0 then (intersection : ℚ) / (union : ℚ) else 0

/-! ## The pure coordination filter (`coordination.ts`, `coordinationFilter`) -/

/-- Two-decimal formatting used inside the filter's `reason` strings
(models JavaScript `Number.prototype.toFixed(2)` on the embedded rationals;
no claim depends on the exact rounding of this string). -/
def toFixed2 (q : ℚ) : String :=
  let n : Int := round (q * 100)
  let sign := if n < 0 then "-" else ""
  let m := n.natAbs
  sign ++ toString (m / 100) ++ "." ++
    (if m % 100 < 10 then "0" else "") ++ toString (m % 100)

/-- Winner / runner-up selection of `coordinationFilter` (higher confidence;
lexicographic tiebreaker when the difference is below `CONFIDENCE_EPSILON`). -/
def filterWinnerPair (myProposal otherProposal : MicroProposal)
    (myName otherName : String) : String × String :=
  let diff := myProposal.confidence - otherProposal.confidence
  if |diff| < CONFIDENCE_EPSILON then
    let winner := if myName < otherName then myName else otherName
    (winner, if winner = myName then otherName else myName)
  else if diff > 0 then (myName, otherName)
  else (otherName, myName)

/-- The ordered routing cascade of `coordinationFilter` (rules 1–6), producing
the mode together with the human-readable reason. -/
def filterModeReason (myProposal otherProposal : MicroProposal)
    (winner : String) : DispatchMode × String :=
  let confidenceGap := |myProposal.confidence - otherProposal.confidence|
  let overlap := angleSimilarity myProposal otherProposal
  let bothHigh := myProposal.confidence > HIGH_CONFIDENCE_THRESHOLD ∧
    otherProposal.confidence > HIGH_CONFIDENCE_THRESHOLD
  let bothLow := myProposal.confidence < LOW_CONFIDENCE_THRESHOLD ∧
    otherProposal.confidence < LOW_CONFIDENCE_THRESHOLD
  let bothSynthesisReady := myProposal.confidence > SYNTHESIS_CONFIDENCE_THRESHOLD ∧
    otherProposal.confidence > SYNTHESIS_CONFIDENCE_THRESHOLD
  let eitherBuildsOn := myProposal.buildsOn || otherProposal.buildsOn
  -- Rule 1: large confidence gap → SOLO
  if confidenceGap > CONFIDENCE_GAP_THRESHOLD then
    (DispatchMode.solo,
      "confidence gap " ++ toFixed2 confidenceGap ++ " > 0.3 — " ++ winner ++ " wins")
  -- Rule 2: both high confidence + different angles → PARALLEL
  else if bothHigh ∧ overlap < ANGLE_OVERLAP_THRESHOLD then
    (DispatchMode.parallel,
      "both confident (" ++ toFixed2 myProposal.confidence ++ ", " ++
        toFixed2 otherProposal.confidence ++ "), low overlap " ++ toFixed2 overlap ++
        " — parallel")
  -- Rule 3: both very high confidence + overlapping angles + opt-in → SYNTHESIS
  else if bothSynthesisReady ∧ overlap ≥ ANGLE_OVERLAP_THRESHOLD ∧ eitherBuildsOn then
    (DispatchMode.synthesis,
      "both high confidence (" ++ toFixed2 myProposal.confidence ++ ", " ++
        toFixed2 otherProposal.confidence ++ "), overlap " ++ toFixed2 overlap ++
        ", builds_on_other — synthesis")
  -- Rule 4: both high confidence + overlapping angles → SOLO
  else if bothHigh ∧ overlap ≥ ANGLE_OVERLAP_THRESHOLD then
    (DispatchMode.solo,
      "both confident but overlapping (" ++ toFixed2 overlap ++ ") — solo: " ++ winner)
  -- Rule 5: both low confidence → SOLO
  else if bothLow then
    (DispatchMode.solo,
      "both low confidence (" ++ toFixed2 myProposal.confidence ++ ", " ++
        toFixed2 otherProposal.confidence ++ ") — solo: " ++ winner)
  -- Rule 6: default → SOLO
  else
    (DispatchMode.solo, "default — solo: " ++ winner)

/-- `coordinationFilter` — the deterministic routing filter. -/
def coordinationFilter (myProposal otherProposal : MicroProposal)
    (myName otherName : String) : FilterResult :=
  let proposals := [(myName, myProposal), (otherName, otherProposal)]
  let wr := filterWinnerPair myProposal otherProposal myName otherName
  let mr := filterModeReason myProposal otherProposal wr.1
  { mode := mr.1
    winner := wr.1
    runnerUp := some wr.2
    reason := mr.2
    proposals := proposals }

/-! ## Round state machine (`coordination.ts`, `createCoordinationHandler`)

JavaScript `Map`s become association lists (JS `Map` iteration order is
insertion order), `Set`s become `List`s used as sets, `null`/`undefined`
become `none`, timers become armed flags plus explicit effects, and every
awaited external call (gateway, history loads) becomes an oracle argument.
The handlers below follow the source line by line for a single sequential
execution of each handler. -/

/-- JS `x || null` / `x || undefined` on an optional string: the empty string
is falsy, so it collapses to `none` as well. -/
def jsOrNone (o : Option String) : Option String :=
  match o with
  | some s => if s = "" then none else some s
  | none => none

/-- JS `x || d` on an optional string with a string default. -/
def jsOrStr (o : Option String) (d : String) : String :=
  match o with
  | some s => if s = "" then d else s
  | none => d

/-- JS truthiness test on an optional string (`undefined`, `null` and `""`
are falsy). -/
def isTruthyStr (o : Option String) : Bool :=
  match o with
  | some s => s ≠ ""
  | none => false

/-- Per-round mutable state (`MicroRound` in the source).  `deadlineArmed`
models the live `timeoutId` (false once `clearTimeout` ran or it fired). -/
structure MicroRound where
  roundId : Option String
  triggerContent : String
  triggerMessageId : Option String
  sourceChatId : Option String
  myProposal : Option MicroProposal := none
  otherProposal : Option MicroProposal := none
  otherName : Option String := none
  coordHistory : String := ""
  recentResponses : String := ""
  deadlineArmed : Bool := true
  resolved : Bool := false
deriving Repr, DecidableEq

/-- `DispatchDecision.waitForResponse` payload (v3.5 synthesis mode). -/
structure WaitForResponse where
  roundId : Option String
  winnerName : String
  myProposal : MicroProposal
  otherProposal : MicroProposal
deriving Repr, DecidableEq

/-- `DispatchDecision` raised by the engine to the channel host. -/
structure DispatchDecision where
  roundId : Option String
  triggerMessageId : Option String
  shouldRespond : Bool
  synthesizeContext : Option String := none
  cancelPending : Bool := false
  proposal : Option MicroProposal := none
  sourceChatId : Option String := none
  waitForResponse : Option WaitForResponse := none
deriving Repr, DecidableEq

/-- Outbound records written via `postToCoordination` (JSON payloads, embedded
structurally). -/
inductive CoordPost where
  | microPropose (round_id : Option String) (proposal : MicroProposal)
      (source_chat_id : Option String)
  | resolvedPost (round_id : Option String) (mode : DispatchMode)
      (winner : String) (runner_up : Option String) (reason : String)
      (my_proposal other_proposal : MicroProposal)
      (source_chat_id : Option String)
  | informReply (toName : String) (topic : Option String) (content : String)
      (expects_reply : Bool) (depth : Nat) (source_chat_id : Option String)
  | negotiateReply (toName : String) (content : String) (depth : Nat)
      (source_chat_id : Option String)
deriving Repr, DecidableEq

/-- Observable side effects of the engine handlers. -/
inductive Effect where
  | post (p : CoordPost)
  | decision (d : DispatchDecision)
  | scheduleDeadline (round_id : Option String)
  | scheduleCleanup (round_id : Option String)
  | clearDeadline (round_id : Option String)
  | gatewayCall (prompt : String)
deriving Repr, DecidableEq

def Effect.isPost : Effect → Bool
  | .post _ => true
  | _ => false

def Effect.isMicroProposePost : Effect → Bool
  | .post (.microPropose _ _ _) => true
  | _ => false

def Effect.decisionsOf : List Effect → List DispatchDecision
  | [] => []
  | .decision d :: es => d :: Effect.decisionsOf es
  | _ :: es => Effect.decisionsOf es

/-- The engine's mutable state: the `rounds` map (keyed by the JS value
`parsed.round_id`, which can be `undefined`), the id dedup set and the
layer-2 write-side dedup set. -/
structure EngineState where
  rounds : List (Option String × MicroRound) := []
  seenMessageIds : List String := []
  respondedTo : List String := []
deriving Repr, DecidableEq

def roundsGet (rounds : List (Option String × MicroRound)) (k : Option String) :
    Option MicroRound :=
  (rounds.find? (fun e => e.1 == k)).map (·.2)

/-- JS `Map.set`: replace in place if the key exists, else append. -/
def roundsSet (rounds : List (Option String × MicroRound)) (k : Option String)
    (v : MicroRound) : List (Option String × MicroRound) :=
  if (rounds.find? (fun e => e.1 == k)).isSome then
    rounds.map (fun e => if e.1 == k then (k, v) else e)
  else rounds ++ [(k, v)]

def roundsDelete (rounds : List (Option String × MicroRound)) (k : Option String) :
    List (Option String × MicroRound) :=
  rounds.filter (fun e => !(e.1 == k))

def EngineState.get (st : EngineState) (k : Option String) : Option MicroRound :=
  roundsGet st.rounds k

def EngineState.set (st : EngineState) (k : Option String) (v : MicroRound) :
    EngineState :=
  { st with rounds := roundsSet st.rounds k v }

def EngineState.del (st : EngineState) (k : Option String) : EngineState :=
  { st with rounds := roundsDelete st.rounds k }

/-- `hasActiveRound` — any round not yet resolved. -/
def hasActiveRound (st : EngineState) : Bool :=
  st.rounds.any (fun e => ¬ e.2.resolved)

/-- `historySection` / `responsesSection`: `round.coordHistory ? "\n" + h : ""`. -/
def sectionOf (s : String) : String :=
  if s = "" then "" else "\n" ++ s

/-- `resolveRound` — one-shot resolution: run the filter, post the `resolved`
record, raise the mode-dependent `DispatchDecision`.  Operates on the round
record; the caller stores the returned record back into the map. -/
def resolveRound (botName : String) (round : MicroRound) :
    MicroRound × List Effect :=
  if round.resolved then (round, [])
  else
    -- round.resolved = true; clearTimeout(round.timeoutId)
    let round := { round with resolved := true, deadlineArmed := false }
    match round.myProposal, round.otherProposal, round.otherName with
    | some myP, some otherP, some otherName =>
      let result := coordinationFilter myP otherP botName otherName
      let iWin := result.winner == botName
      let resolvedPost := Effect.post (.resolvedPost round.roundId result.mode
        result.winner result.runnerUp result.reason myP otherP
        (jsOrNone round.sourceChatId))
      let historySection := sectionOf round.coordHistory
      let responsesSection := sectionOf round.recentResponses
      let decision : DispatchDecision :=
        match result.mode with
        | DispatchMode.solo =>
          if iWin then
            let otherAngle := ", " ++ otherName ++ "\x27s angle: \"" ++
              otherP.angle ++ "\""
            { roundId := round.roundId
              triggerMessageId := round.triggerMessageId
              shouldRespond := true
              synthesizeContext := some ("[Coordination resolved." ++
                historySection ++ responsesSection ++ "\nYour angle: \"" ++
                myP.angle ++ "\"" ++ otherAngle ++
                ". You were selected to respond (" ++ result.reason ++ ").]")
              proposal := some myP
              sourceChatId := jsOrNone round.sourceChatId }
          else
            { roundId := round.roundId
              triggerMessageId := round.triggerMessageId
              shouldRespond := false
              cancelPending := true }
        | DispatchMode.parallel =>
          let myAngle := myP.angle
          let otherAngle := otherP.angle
          let otherCovers := String.intercalate ", " otherP.covers
          if iWin then
            { roundId := round.roundId
              triggerMessageId := round.triggerMessageId
              shouldRespond := true
              synthesizeContext := some ("[Coordination resolved: PARALLEL." ++
                historySection ++ responsesSection ++ "\nYour angle: \"" ++
                myAngle ++ "\". " ++ otherName ++ "\x27s angle: \"" ++
                otherAngle ++ "\", covering " ++ otherCovers ++
                ". You were selected as primary. Respond to the user — your perspectives complement each other.]")
              proposal := some myP
              sourceChatId := jsOrNone round.sourceChatId }
          else
            { roundId := round.roundId
              triggerMessageId := round.triggerMessageId
              shouldRespond := true
              synthesizeContext := some ("[Coordination resolved: PARALLEL." ++
                historySection ++ responsesSection ++ "\nYour angle: \"" ++
                myAngle ++ "\". " ++ otherName ++ "\x27s angle: \"" ++
                otherAngle ++ "\", covering " ++ otherCovers ++
                ". Both agents responding — focus on your unique angle.]")
              proposal := some myP
              sourceChatId := jsOrNone round.sourceChatId }
        | DispatchMode.synthesis =>
          if iWin then
            { roundId := round.roundId
              triggerMessageId := round.triggerMessageId
              shouldRespond := true
              synthesizeContext := some ("[Coordination resolved: SYNTHESIS (you go first)." ++
                historySection ++ responsesSection ++ "\nYour angle: \"" ++
                myP.angle ++ "\". " ++ otherName ++ " will build on your response.]")
              proposal := some myP
              sourceChatId := jsOrNone round.sourceChatId }
          else
            { roundId := round.roundId
              triggerMessageId := round.triggerMessageId
              shouldRespond := false
              proposal := some myP
              sourceChatId := jsOrNone round.sourceChatId
              waitForResponse := some
                { roundId := round.roundId
                  winnerName := result.winner
                  myProposal := myP
                  otherProposal := otherP } }
      (round, [resolvedPost, Effect.decision decision])
    | _, _, _ =>
      -- incomplete state — fail-open dispatch
      (round, [Effect.decision
        { roundId := round.roundId
          triggerMessageId := round.triggerMessageId
          shouldRespond := true
          sourceChatId := jsOrNone round.sourceChatId }])

/-- `handleTimeout` — round deadline fired while unresolved: fail-open. -/
def handleTimeout (st : EngineState) (roundId : Option String) :
    EngineState × List Effect :=
  match st.get roundId with
  | none => (st, [])
  | some round =>
    if round.resolved then (st, [])
    else
      let round := { round with resolved := true, deadlineArmed := false }
      (st.set roundId round,
        [Effect.decision
          { roundId := roundId
            triggerMessageId := round.triggerMessageId
            shouldRespond := true
            sourceChatId := jsOrNone round.sourceChatId }])

/-- The parsed fields of an inbound coordination record that the engine
inspects (`parsed` in the source; each field `none` when absent). -/
structure ParsedRecord where
  protocol : Option String := none
  intentType : Option String := none
  kind : Option String := none
  round_id : Option String := none
  proposal : Option MicroProposal := none
  toName : Option String := none
  content : Option String := none
  expects_reply : Option Bool := none
  depth : Option Nat := none
  topic : Option String := none
  signal : Option String := none
  summary : Option String := none
  source_chat_id : Option String := none
  trigger_content : Option String := none
  trigger_message_id : Option String := none
deriving Repr, DecidableEq

/-- `ParsedCoordinationMessage` — inbound message plus its parsed JSON
(`none` when unparseable). -/
structure ParsedCoordinationMessage where
  id : String
  speaker : String
  content : String
  parsed : Option ParsedRecord
  messageType : String
deriving Repr, DecidableEq

/-- `handleRoundStart` — insert the round, start timers, load context, call
the proposal generator (its outcome is the oracle `genResult`; history-load
outcomes are `histResult` / `recentResult`, `none` modelling a rejected
promise), then post `micro_propose` and resolve if the peer's proposal is
already buffered. -/
def handleRoundStart (botName : String) (st : EngineState)
    (parsed : ParsedRecord) (histResult recentResult : Option String)
    (genResult : Option MicroProposal) : EngineState × List Effect :=
  let roundId := parsed.round_id
  if (st.get roundId).isSome then (st, [])
  else
    let round : MicroRound :=
      { roundId := roundId
        triggerContent := jsOrStr parsed.trigger_content ""
        triggerMessageId := jsOrNone parsed.trigger_message_id
        sourceChatId := jsOrNone parsed.source_chat_id }
    let st := st.set roundId round
    let eff0 := [Effect.scheduleDeadline roundId, Effect.scheduleCleanup roundId]
    -- await Promise.allSettled([loadHistory, loadRecentResponses])
    let coordHistory := histResult.getD ""
    let recentResponses :=
      if isTruthyStr parsed.source_chat_id then recentResult.getD "" else ""
    match st.get roundId with
    | none => (st, eff0)
    | some currentRound =>
      if currentRound.resolved then (st, eff0)
      else
        let currentRound :=
          { currentRound with
            coordHistory := coordHistory
            recentResponses := recentResponses }
        let st := st.set roundId currentRound
        match genResult with
        | none =>
          -- generator failure: delete round, clear deadline, fail-open decision
          let st := st.del roundId
          (st, eff0 ++ [Effect.clearDeadline roundId,
            Effect.decision
              { roundId := roundId
                triggerMessageId := jsOrNone parsed.trigger_message_id
                shouldRespond := true
                sourceChatId := jsOrNone parsed.source_chat_id }])
        | some proposal =>
          match st.get roundId with
          | none => (st, eff0)
          | some activeRound =>
            if activeRound.resolved then (st, eff0)
            else
              let activeRound := { activeRound with myProposal := some proposal }
              let st := st.set roundId activeRound
              let eff1 := eff0 ++ [Effect.post (.microPropose roundId proposal
                (jsOrNone activeRound.sourceChatId))]
              if activeRound.otherProposal.isSome ∧ activeRound.otherName.isSome then
                let (round', eff2) := resolveRound botName activeRound
                (st.set roundId round', eff1 ++ eff2)
              else (st, eff1)

/-- Default proposal substituted by `handleMicroPropose` when the record has
no (or a falsy) `proposal` field: `parsed.proposal || {angle:"", ...}`. -/
def defaultPeerProposal : MicroProposal :=
  { angle := ""
    confidence := 1/2
    covers := []
    solo_sufficient := true }

/-- `handleMicroPropose` — record the peer's proposal; resolve if ours is
already present, else buffer. -/
def handleMicroPropose (botName : String) (st : EngineState) (speaker : String)
    (round_id : Option String) (proposalField : Option MicroProposal) :
    EngineState × List Effect :=
  match st.get round_id with
  | none => (st, [])
  | some round =>
    if round.resolved then (st, [])
    else
      let otherProposal := proposalField.getD defaultPeerProposal
      let round := { round with
        otherProposal := some otherProposal
        otherName := some speaker }
      if round.myProposal.isNone then
        (st.set round_id round, [])
      else
        let (round', effs) := resolveRound botName round
        (st.set round_id round', effs)

/-- JS template interpolation of a possibly-absent string
(`${undefined}` renders as `"undefined"`). -/
def jsTemplate (o : Option String) : String :=
  o.getD "undefined"

/-- One of the `/^_?\[.*word.*\]_?$/i` entries of `ERROR_PATTERNS`, applied to
a trimmed response: optionally strip one leading and one trailing underscore,
then require a leading `[`, a trailing `]` and the word as a lowercased
substring.  (The JS dot does not match newlines; that subtlety is not
modelled — no claim depends on these patterns.) -/
def matchesBracketPattern (t : String) (word : String) : Bool :=
  let lower := t.toLower
  let s1 := if lower.startsWith "_" then lower.drop 1 else lower
  let s2 := if s1.endsWith "_" then s1.dropRight 1 else s1
  s2.startsWith "[" && s2.endsWith "]" && s2.containsSubstr word.toSubstring

/-- `isValidResponse` — reject null, blank, too-short and error-pattern
responses. -/
def isValidResponse (response : Option String) : Bool :=
  match response with
  | none => false
  | some r =>
    if r.trim.length = 0 then false
    else if r.trim.length < 3 then false
    else
      let t := r.trim
      !(matchesBracketPattern t "error" || matchesBracketPattern t "timeout" ||
        matchesBracketPattern t "failed" ||
        t.toLower.containsSubstr "no response".toSubstring ||
        t.data.all (fun c => c.isWhitespace))

/-- `alreadyRespondedTo`'s dedup key: `speaker + ":" + content.slice(0,120)`. -/
def alreadyRespondedKey (speaker content : String) : String :=
  speaker ++ ":" ++ content.take 120

/-- The layer-2 `AgentMessage` branch of `handleMessage`
(question / inform / delegate / status / flag).  `gatewayResponse` is the
oracle for `callGatewayGuarded` (null on drop, timeout or failure; the
in-flight guard cannot trigger in a sequential run, so the call effect is
always recorded). -/
def handleAgentMessage (botName : String) (st : EngineState) (speaker : String)
    (parsed : ParsedRecord) (gatewayResponse : Option String) :
    EngineState × List Effect :=
  if isTruthyStr parsed.toName ∧ parsed.toName ≠ some botName then (st, [])
  else if hasActiveRound st then (st, [])
  else
    let pref := if parsed.toName = some botName
      then "[" ++ speaker ++ " to you" else "[" ++ speaker
    let kindLabel := if parsed.kind = some "question" then "asks"
      else if parsed.kind = some "flag" then "flags" else "says"
    let depth := parsed.depth.getD 0
    let key := alreadyRespondedKey speaker (jsOrStr parsed.content "")
    if key ∈ st.respondedTo then (st, [])
    else
      let st := { st with respondedTo := key :: st.respondedTo }
      let prompt := pref ++ " " ++ kindLabel ++ "]: " ++ jsTemplate parsed.content
      if isValidResponse gatewayResponse ∧ parsed.expects_reply ≠ some false ∧
          depth < MAX_COORDINATION_DEPTH then
        (st, [Effect.gatewayCall prompt,
          Effect.post (.informReply speaker (jsOrNone parsed.topic)
            (gatewayResponse.getD "")
            (decide (depth + 1 < MAX_COORDINATION_DEPTH - 1)) (depth + 1)
            (jsOrNone parsed.source_chat_id))])
      else (st, [Effect.gatewayCall prompt])

/-- The `resolution` signal branch of `handleMessage` (log; forward as context
when no round is active). -/
def handleResolutionSignal (st : EngineState) (speaker : String)
    (parsed : ParsedRecord) : EngineState × List Effect :=
  if hasActiveRound st then (st, [])
  else
    (st, [Effect.gatewayCall ("[" ++ speaker ++ " signals " ++
      jsTemplate parsed.signal ++
      (if isTruthyStr parsed.summary then ": " ++ (parsed.summary.getD "") else "") ++
      "]")])

/-- The legacy `negotiate` branch of `handleMessage`. -/
def handleNegotiate (st : EngineState) (speaker : String)
    (parsed : ParsedRecord) (gatewayResponse : Option String) :
    EngineState × List Effect :=
  if hasActiveRound st then (st, [])
  else
    let depth := parsed.depth.getD 0
    let key := alreadyRespondedKey speaker (jsOrStr parsed.content "")
    if key ∈ st.respondedTo then (st, [])
    else
      let st := { st with respondedTo := key :: st.respondedTo }
      let prompt := "[Coordination — " ++ speaker ++ "]: " ++ jsTemplate parsed.content
      if isValidResponse gatewayResponse ∧ depth < MAX_COORDINATION_DEPTH then
        (st, [Effect.gatewayCall prompt,
          Effect.post (.negotiateReply speaker (gatewayResponse.getD "")
            (depth + 1) (jsOrNone parsed.source_chat_id))])
      else (st, [Effect.gatewayCall prompt])

/-- `handleMessage` — dedup then dispatch on the record's shape, exactly in
the source's branch order.  (`JSON.stringify(parsed).slice(0,300)` inside the
structured-forward prompt is modelled with the `Repr` rendering; no claim
depends on that string.) -/
def handleMessage (botName : String) (st : EngineState)
    (msg : ParsedCoordinationMessage) (gatewayResponse : Option String)
    (histResult recentResult : Option String)
    (genResult : Option MicroProposal) : EngineState × List Effect :=
  if msg.id = "" then (st, [])
  else if msg.id ∈ st.seenMessageIds then (st, [])
  else
    let st := { st with seenMessageIds := msg.id :: st.seenMessageIds }
    match msg.parsed with
    | some parsed =>
      if parsed.intentType = some "round_start" then
        handleRoundStart botName st parsed histResult recentResult genResult
      else if parsed.kind = some "micro_propose" ∧ isTruthyStr parsed.round_id then
        handleMicroPropose botName st msg.speaker parsed.round_id parsed.proposal
      else if parsed.kind = some "resolved" ∧ isTruthyStr parsed.round_id then
        (st, [])
      else if parsed.kind = some "propose" ∨ parsed.kind = some "accept" ∨
          parsed.kind = some "counter" ∨ parsed.kind = some "ready" then
        (st, [])
      else if parsed.kind = some "question" ∨ parsed.kind = some "inform" ∨
          parsed.kind = some "delegate" ∨ parsed.kind = some "status" ∨
          parsed.kind = some "flag" then
        handleAgentMessage botName st msg.speaker parsed gatewayResponse
      else if parsed.kind = some "resolution" then
        handleResolutionSignal st msg.speaker parsed
      else if parsed.kind = some "negotiate" then
        handleNegotiate st msg.speaker parsed gatewayResponse
      else if parsed.protocol = some COORDINATION_PROTOCOL_VERSION ∨
          parsed.protocol = some "dyad-coord-v1" then
        if hasActiveRound st then (st, [])
        else
          (st, [Effect.gatewayCall ("[Coordination from " ++ msg.speaker ++ "]: " ++
            (reprStr parsed).take 300)])
      else (st, [])
    | none =>
      if hasActiveRound st then (st, [])
      else
        (st, [Effect.gatewayCall ("[Coordination from " ++ msg.speaker ++ "]: " ++
          msg.content)])

/-! ## Dispatch holder (channel plugin: `onMessage`, `onDispatchDecision`)

The channel plugin holds each user-triggered dispatch while a round runs and
applies the engine's decision.  We model the per-`message_id` holder as an
explicit event-step system: one deterministic step function over a holder
state, driven by an arbitrary list of events.  Events cover both delivery
paths (fast path and poll both enter the same `onMessage` callback), the
10 s backstop, the 8 s defer backup, the synthesis wait completing (with the
summary sink it observes) or throwing, and arbitrary — possibly duplicated or
racing — coordination decisions.  Timer `setTimeout`/`clearTimeout` pairs
become armed-flag fields: a fire event on a cleared or replaced timer is a
no-op, matching JS semantics.  TTL evictions of the dedup sets (10 min for
processed ids, 5 s for content keys, 60 s for the dispatched set) are outside
the model; every modelled timer is at most 15 s. -/

/-- A row of the `coordination_summaries` response-summary sink. -/
structure SummaryRow where
  round_id : String
  speaker : String
  content : String
deriving Repr, DecidableEq

/-- Modelled from the spec: `waitForResponseSummary` is declared in the
design documents and imported by the channel plugin but its implementation is
not among the provided sources.  Per the spec (§4.9) it polls the
response-summary sink every 500 ms for up to `timeoutMs` and returns the
content of the row matching `(round_id, speaker)`, or null on timeout.  The
poll outcome is modelled as one lookup of the sink at completion time; a
`none` result is the 15 s timeout. -/
def waitForResponseSummary (sink : List SummaryRow) (roundId : Option String)
    (speakerName : String) : Option String :=
  (sink.find? (fun r => some r.round_id == roundId && r.speaker == speakerName)).map
    (·.content)

/-- The synthesis context used when the winner's response summary was found
(`doSynthesisWait`, found branch). -/
def synthesisFoundCtx (w : WaitForResponse) (winnerResponse : String) : String :=
  "[Coordination resolved: SYNTHESIS. " ++ w.winnerName ++
    " responded first with: \x27" ++ winnerResponse ++ "\x27. Your angle: \"" ++
    w.myProposal.angle ++
    "\". Respond to the user — you can extend, challenge, reframe, or add your unique perspective. Don\x27t repeat what was already said.]"

/-- The parallel-style fallback context used when the synthesis wait timed
out (`doSynthesisWait`, timeout branch). -/
def synthesisFallbackCtx (w : WaitForResponse) : String :=
  "[Coordination resolved: PARALLEL (synthesis fallback). Your angle: \"" ++
    w.myProposal.angle ++ "\". " ++ w.winnerName ++ "\x27s angle: \"" ++
    w.otherProposal.angle ++ "\", covering " ++
    String.intercalate ", " w.otherProposal.covers ++
    ". Both agents responding — focus on your unique angle.]"

/-- Which hold timer (if any) is currently armed on a pending entry:
the initial 10 s backstop or the 8 s defer backup. -/
inductive TimerKind where
  | backstop
  | deferBackup
deriving Repr, DecidableEq

/-- A `pendingDispatches` entry; `timer = none` models a cleared timeout. -/
structure PendingEntry where
  chatId : String
  text : String
  userId : String
  timer : Option TimerKind
deriving Repr, DecidableEq

/-- The fixed data of one logical user message at one engine instance. -/
structure HolderCtx where
  botName : String
  messageId : String
  chatId : String
  text : String
  userId : String
deriving Repr, DecidableEq

/-- Per-message holder state.  `dispatchLog` records every `doDispatch`
invocation for this message as `(chatId, text, userId)`. -/
structure HolderState where
  processed : Bool := false
  contentSeen : Bool := false
  pending : Option PendingEntry := none
  dispatched : Bool := false
  synthWaits : List WaitForResponse := []
  dispatchLog : List (String × String × String) := []
deriving Repr, DecidableEq

/-- `\w` of the mention regex (`/@(\w+)/i`): ASCII word characters. -/
def isWordChar (c : Char) : Bool :=
  c.isAlphanum || c == '_'

/-- First `@word` match of `text.match(/@(\w+)/i)` (the captured group). -/
def firstMentionAux : List Char → Option String
  | [] => none
  | c :: rest =>
    if c == '@' then
      let w := rest.takeWhile isWordChar
      if w.isEmpty then firstMentionAux rest else some (String.mk w)
    else firstMentionAux rest

def firstMention (text : String) : Option String :=
  firstMentionAux text.data

/-- Holder events: the interleavings quantified over in the claims. -/
inductive HolderEvent where
  /-- `onMessage` runs for this message (fast path or 5 s poll). -/
  | deliver
  /-- The 10 s hold backstop timer fires. -/
  | backstopFire
  /-- The 8 s defer backup timer fires. -/
  | deferFire
  /-- `onDispatchDecision` runs with decision `d`. -/
  | decision (d : DispatchDecision)
  /-- The `i`-th outstanding `doSynthesisWait` completes its wait, observing
  the summary sink `sink`. -/
  | synthesisComplete (i : Nat) (sink : List SummaryRow)
  /-- The `i`-th outstanding `doSynthesisWait` throws; its catch runs. -/
  | synthesisError (i : Nat)
deriving Repr, DecidableEq

/-- One step of the holder (coordination enabled).  Each branch follows the
corresponding source block of the channel plugin. -/
def applyEvent (ctx : HolderCtx) (st : HolderState) : HolderEvent → HolderState
  | HolderEvent.deliver =>
    -- onMessage: processedMessageIds gate, then content dedup, then @mention
    -- hard routing, then hold + round start.
    if st.processed then st
    else
      let st := { st with processed := true }
      if st.contentSeen then st
      else
        let st := { st with contentSeen := true }
        match firstMention ctx.text with
        | some mentioned =>
          if mentioned.toLower = ctx.botName.toLower then
            { st with
                dispatchLog :=
                st.dispatchLog ++ [(ctx.chatId, ctx.text, ctx.userId)] }
          else st
        | none =>
          if st.pending.isSome then st
          else if st.dispatched then st
          else
            { st with pending := some { chatId := ctx.chatId, text := ctx.text, userId := ctx.userId, timer := some TimerKind.backstop } }
  | HolderEvent.backstopFire =>
    match st.pending with
    | some e =>
      if e.timer = some TimerKind.backstop then
        let st := { st with pending := none }
        if st.dispatched then st
        else
          { st with
              dispatched := true
              dispatchLog := st.dispatchLog ++ [(e.chatId, e.text, e.userId)] }
      else st
    | none => st
  | HolderEvent.deferFire =>
    match st.pending with
    | some e =>
      if e.timer = some TimerKind.deferBackup then
        let st := { st with pending := none }
        if st.dispatched then st
        else
          { st with
              dispatched := true
              dispatchLog := st.dispatchLog ++ [(e.chatId, e.text, e.userId)] }
      else st
    | none => st
  | HolderEvent.decision d =>
    if ¬ d.triggerMessageId = some ctx.messageId then st
    else
      match st.pending with
      | none => st
      | some e =>
        match d.waitForResponse with
        | some w =>
          -- SYNTHESIS runner-up: cancel timer, keep the entry, launch the wait
          { st with
              pending := some { e with timer := none }
              synthWaits := st.synthWaits ++ [w] }
        | none =>
          if d.shouldRespond then
            if st.dispatched then st
            else
              let text := match d.synthesizeContext with
                | some c => c ++ "\n\n" ++ e.text
                | none => e.text
              { st with
                  dispatched := true
                  pending := none
                  dispatchLog := st.dispatchLog ++ [(e.chatId, text, e.userId)] }
          else if d.cancelPending then
            { st with pending := none, dispatched := true }
          else
            -- initial defer: clear the hold timer, arm the 8 s backup
            { st with pending := some { e with timer := some TimerKind.deferBackup } }
  | HolderEvent.synthesisComplete i sink =>
    match st.synthWaits.get? i with
    | none => st
    | some w =>
      let st := { st with synthWaits := st.synthWaits.eraseIdx i }
      let winnerResponse := waitForResponseSummary sink w.roundId w.winnerName
      match st.pending with
      | none => st
      | some e =>
        if st.dispatched then st
        else
          let synthesisCtx := match winnerResponse with
            | some resp => synthesisFoundCtx w resp
            | none => synthesisFallbackCtx w
          { st with
              dispatched := true
              pending := none
              dispatchLog := st.dispatchLog ++
              [(e.chatId, synthesisCtx ++ "\n\n" ++ e.text, e.userId)] }
  | HolderEvent.synthesisError i =>
    match st.synthWaits.get? i with
    | none => st
    | some _ =>
      let st := { st with synthWaits := st.synthWaits.eraseIdx i }
      match st.pending with
      | none => st
      | some e =>
        if st.dispatched then st
        else
          { st with
              dispatched := true
              pending := none
              dispatchLog := st.dispatchLog ++ [(e.chatId, e.text, e.userId)] }

/-- Run the holder from the initial state over an arbitrary event list. -/
def runHolder (ctx : HolderCtx) (events : List HolderEvent) : HolderState :=
  events.foldl (applyEvent ctx) {}

/-! ## Poll safety net (`src/supabase-bus.ts`, `pollPending`)

The durable row store is a list of rows; Supabase query-builder chains become
list transformations.  `created_at` / `handled_at` ISO-8601 timestamps compare
chronologically exactly as their string forms compare lexicographically, so
they are embedded as naturals. -/

/-- Payload of a `pending_dispatches` row. -/
structure DispatchPayload where
  chatId : String
  text : String
  speaker : String
  messageId : String
deriving Repr, DecidableEq

/-- A `pending_dispatches` row. -/
structure PendingRow where
  rowId : Nat
  bot_id : String
  message_id : String
  status : String
  created_at : Nat
  handled_at : Option Nat := none
  payload : DispatchPayload
deriving Repr, DecidableEq

/-- Result of one `pollPending` pass: the updated store, the grown module
dedup set, and the rows for which `claimAndProcess` invoked `onMessage`. -/
structure PollResult where
  db : List PendingRow
  processedIds : List String
  invoked : List PendingRow
deriving Repr, DecidableEq

/-- The fold step of the `for (const row of data)` loop: rows already in the
module dedup set are claimed silently by row id; unseen rows get the CAS claim
on `(bot_id, message_id, status='pending')` and then the `onMessage`
invocation (always invoked — the claim is best-effort). -/
def pollStep (botId : String) (now : Nat)
    (acc : List PendingRow × List String × List PendingRow) (row : PendingRow) :
    List PendingRow × List String × List PendingRow :=
  let (db, ids, invoked) := acc
  if row.message_id ∈ ids then
    (db.map (fun r =>
        if r.rowId = row.rowId ∧ r.status = "pending" then
          { r with status := "handled", handled_at := some now }
        else r),
      ids, invoked)
  else
    (db.map (fun r =>
        if r.bot_id = botId ∧ r.message_id = row.message_id ∧ r.status = "pending" then
          { r with status := "handled", handled_at := some now }
        else r),
      row.message_id :: ids, invoked ++ [row])

/-- The opening bulk update: mark rows from before boot as handled. -/
def quarantineStale (botId : String) (bootTime now : Nat)
    (db : List PendingRow) : List PendingRow :=
  db.map (fun r =>
    if r.bot_id = botId ∧ r.status = "pending" ∧ r.created_at < bootTime then
      { r with status := "handled", handled_at := some now }
    else r)

/-- The select: live pending rows for this bot, ascending `created_at`,
limit 20. -/
def selectLive (botId : String) (bootTime : Nat) (db1 : List PendingRow) :
    List PendingRow :=
  ((db1.filter (fun r =>
      r.bot_id = botId ∧ r.status = "pending" ∧ bootTime ≤ r.created_at)).mergeSort
    (fun a b => a.created_at ≤ b.created_at)).take 20

/-- The closing cleanup: delete handled rows older than one hour. -/
def cleanupHandled (botId : String) (now : Nat) (db : List PendingRow) :
    List PendingRow :=
  db.filter (fun r =>
    ¬ (r.bot_id = botId ∧ r.status = "handled" ∧
      r.handled_at.any (fun h => decide (h + 3600000 < now)) = true))

/-- `pollPending` — bulk-quarantine rows older than boot, select live pending
rows, claim-and-process each, then clean up old handled rows.
(`handled_at < now - 3600000` is embedded additively to avoid truncated
subtraction.) -/
def pollPending (botId : String) (bootTime now : Nat)
    (processedIds : List String) (db : List PendingRow) : PollResult :=
  let db1 := quarantineStale botId bootTime now db
  let selected := selectLive botId bootTime db1
  let folded := selected.foldl (pollStep botId now) (db1, processedIds, [])
  { db := cleanupHandled botId now folded.1
    processedIds := folded.2.1
    invoked := folded.2.2 }

/-! ## Micro-proposal generation (`coordination.ts`, `generateMicroProposal`)

The gateway's textual output is matched against `/\{[\s\S]*?\}/` and the
match is fed to `JSON.parse`.  Parsed JSON values are embedded as `JVal`;
`JSON.parse` itself (which can throw, caught by the source) is an oracle
`parse : String → Option JVal`. -/

/-- A parsed JSON value. -/
inductive JVal where
  | null
  | bool (b : Bool)
  | num (q : ℚ)
  | str (s : String)
  | arr (l : List JVal)
  | obj (fields : List (String × JVal))
deriving Repr

/-- JS property access `v.f` (undefined on non-objects). -/
def jGet (v : JVal) (f : String) : Option JVal :=
  match v with
  | JVal.obj fields => (fields.find? (fun e => e.1 == f)).map (·.2)
  | _ => none

/-- JS truthiness of a JSON value. -/
def jsTruthy : JVal → Bool
  | JVal.null => false
  | JVal.bool b => b
  | JVal.num q => !(q == 0)
  | JVal.str s => !(s == "")
  | JVal.arr _ => true
  | JVal.obj _ => true

/-- JS string coercion of a JSON value (numeric rendering approximates the
JS decimal form; no claim depends on it). -/
def jvalToString : JVal → String
  | JVal.null => "null"
  | JVal.bool b => if b then "true" else "false"
  | JVal.num q => toString q.num ++ (if q.den = 1 then "" else "/" ++ toString q.den)
  | JVal.str s => s
  | JVal.obj _ => "[object Object]"
  | JVal.arr l => String.intercalate "," (l.attach.map (fun x => jvalToString x.1))
decreasing_by
  simp_wf
  have hmem := List.sizeOf_lt_of_mem x.2
  omega

/-- The first match of `/\{[\s\S]*?\}/`: from the first `{` to the first `}`
after it (no later `{` can match if the first cannot). -/
def firstBraceMatch (s : String) : Option String :=
  match s.data.dropWhile (fun c => !(c == '\x7b')) with
  | [] => none
  | _ :: rest =>
    let inner := rest.takeWhile (fun c => !(c == '\x7d'))
    if inner.length = rest.length then none
    else some (String.mk ('\x7b' :: inner ++ ['\x7d']))

/-- The fallback proposal used when no JSON object is found or `JSON.parse`
throws. -/
def fallbackProposal (content : String) : MicroProposal :=
  { angle := content.take 100
    confidence := 1/2
    covers := []
    solo_sufficient := true }

/-- Field normalization of the parsed object (the success path of the `try`
block). -/
def normalizeProposal (content : String) (j : JVal) : MicroProposal :=
  { angle :=
      match jGet j "angle" with
      | some v => if jsTruthy v then jvalToString v else content.take 100
      | none => content.take 100
    confidence :=
      match jGet j "confidence" with
      | some (JVal.num q) => max 0 (min 1 q)
      | _ => 1/2
    covers :=
      match jGet j "covers" with
      | some (JVal.arr l) => l.map jvalToString
      | _ => []
    solo_sufficient :=
      match jGet j "solo_sufficient" with
      | some (JVal.bool false) => false
      | _ => true
    builds_on_other := some
      (match jGet j "builds_on_other" with
        | some (JVal.bool true) => true
        | _ => false) }

/-- The parse-and-normalize tail of `generateMicroProposal`, applied to
non-empty gateway content. -/
def microProposalFromContent (parse : String → Option JVal) (content : String) :
    MicroProposal :=
  match firstBraceMatch content with
  | none => fallbackProposal content
  | some s =>
    match parse s with
    | none => fallbackProposal content
    | some j => normalizeProposal content j

/-- `generateMicroProposal` — Haiku first, gateway fallback (JS `!content`
treats the empty string like null), null when both fail. -/
def generateMicroProposal (parse : String → Option JVal)
    (haiku gatewayResp : Option String) : Option MicroProposal :=
  let content := match haiku with
    | some s => if s = "" then none else some s
    | none => none
  let content := match content with
    | some s => some s
    | none =>
      match gatewayResp with
      | some s => if s = "" then none else some s
      | none => none
  content.map (microProposalFromContent parse)

/-! ## Specification-side definitions

These two definitions transcribe the SPEC's wording (section 4.5), to be
compared with the code-derived definitions above.  They are used only in the
refinement claims C2 and C3. -/

/-- Spec wording (C3): Jaccard index `|A∩B| / |A∪B|` over two token sets, with
the spec's boundary convention: both empty → 1, exactly one empty → 0. -/
def specJaccard (A B : Finset String) : ℚ :=
  if A = ∅ ∧ B = ∅ then 1
  else if A = ∅ ∨ B = ∅ then 0
  else ((A ∩ B).card : ℚ) / ((A ∪ B).card : ℚ)

/-- Spec wording (C2): the ordered routing table, first match wins, with the
spec's default thresholds `gap = 0.3`, `overlap = 0.5`, `high = 0.5`,
`low = 0.3`, `synth = 0.7`; `sim` is the angle similarity of the two
proposals. -/
def specRoutingMode (pa pb : MicroProposal) (sim : ℚ) : DispatchMode :=
  if |pa.confidence - pb.confidence| > 3/10 then DispatchMode.solo
  else if (pa.confidence > 1/2 ∧ pb.confidence > 1/2) ∧ sim < 1/2 then
    DispatchMode.parallel
  else if (pa.confidence > 7/10 ∧ pb.confidence > 7/10) ∧ sim ≥ 1/2 ∧
      (pa.buildsOn || pb.buildsOn) then
    DispatchMode.synthesis
  else if (pa.confidence > 1/2 ∧ pb.confidence > 1/2) ∧ sim ≥ 1/2 then
    DispatchMode.solo
  else if pa.confidence < 3/10 ∧ pb.confidence < 3/10 then DispatchMode.solo
  else DispatchMode.solo

/-- The inductive invariant of the holder event system: before the first
delivery nothing has happened; on a mention route no entry or wait ever
exists; on the hold route nothing is logged until `dispatched` is set, and
the log never exceeds one entry. -/
def HolderInv (ctx : HolderCtx) (st : HolderState) : Prop :=
  st.dispatchLog.length ≤ 1 ∧
  (st.processed = false → st = {}) ∧
  (match firstMention ctx.text with
    | some m =>
      st.pending = none ∧ st.synthWaits = [] ∧ st.dispatched = false ∧
        (¬ m.toLower = ctx.botName.toLower → st.dispatchLog = [])
    | none => st.dispatched = false → st.dispatchLog = [])

/-! ## Lemmas about the pure filter -/

theorem angleSimilarity_comm (a b : MicroProposal) :
    angleSimilarity a b = angleSimilarity b a := by
  unfold angleSimilarity
  by_cases ha : (extractKeywords a).card = 0 <;>
    by_cases hb : (extractKeywords b).card = 0 <;>
      simp [ha, hb, Finset.inter_comm, Finset.union_comm]

theorem filterWinnerPair_swap (pa pb : MicroProposal) (na nb : String)
    (h : na ≠ nb) :
    filterWinnerPair pa pb na nb = filterWinnerPair pb pa nb na := by
  unfold filterWinnerPair
  have habs : |pb.confidence - pa.confidence| = |pa.confidence - pb.confidence| :=
    abs_sub_comm _ _
  by_cases htie : |pa.confidence - pb.confidence| < CONFIDENCE_EPSILON
  · rcases lt_trichotomy na nb with hlt | heq | hgt
    · simp [htie, habs, hlt, lt_asymm hlt, h]
    · exact absurd heq h
    · simp [htie, habs, hgt, lt_asymm hgt, Ne.symm h]
  · have hne : pa.confidence - pb.confidence ≠ 0 := by
      intro h0
      exact htie (by simp [h0, CONFIDENCE_EPSILON])
    by_cases hpos : pa.confidence - pb.confidence > 0
    · have hneg : ¬ pb.confidence - pa.confidence > 0 := by linarith
      simp [htie, habs, hpos, hneg]
    · have hpos' : pb.confidence - pa.confidence > 0 := by
        rcases lt_or_eq_of_le (le_of_not_lt hpos) with hlt | h0
        · linarith
        · exact absurd h0 hne
      simp [htie, habs, hpos, hpos']

theorem filterModeReason_mode_swap (pa pb : MicroProposal) (w w2 : String) :
    (filterModeReason pa pb w).1 = (filterModeReason pb pa w2).1 := by
  unfold filterModeReason
  simp only [abs_sub_comm pb.confidence pa.confidence,
    angleSimilarity_comm pb pa, and_comm, Bool.or_comm]
  split_ifs <;> rfl

/-! ## Lemmas about the rounds map -/

theorem find?_key_replace (rs : List (Option String × MicroRound))
    (k : Option String) (v : MicroRound)
    (h : (rs.find? (fun e => e.1 == k)).isSome) :
    (rs.map (fun e => if e.1 == k then (k, v) else e)).find? (fun e => e.1 == k) =
      some (k, v) := by
  induction rs with
  | nil => simp at h
  | cons e es ih =>
    rw [List.map_cons]
    by_cases he : (e.1 == k) = true
    · rw [if_pos he]
      simp [List.find?_cons]
    · rw [if_neg he]
      rw [List.find?_cons] at h
      rw [List.find?_cons]
      simp only [eq_false_of_ne_true he] at h ⊢
      exact ih h

theorem find?_key_append (rs : List (Option String × MicroRound))
    (k : Option String) (v : MicroRound)
    (h : ¬ (rs.find? (fun e => e.1 == k)).isSome) :
    (rs ++ [(k, v)]).find? (fun e => e.1 == k) = some (k, v) := by
  induction rs with
  | nil => simp [List.find?_cons]
  | cons e es ih =>
    rw [List.find?_cons] at h
    by_cases he : (e.1 == k) = true
    · rw [he] at h
      simp at h
    · simp only [eq_false_of_ne_true he] at h
      rw [List.cons_append, List.find?_cons]
      simp only [eq_false_of_ne_true he]
      exact ih h

theorem roundsGet_set_self (rs : List (Option String × MicroRound))
    (k : Option String) (v : MicroRound) :
    roundsGet (roundsSet rs k v) k = some v := by
  unfold roundsGet roundsSet
  split_ifs with hfound
  · rw [find?_key_replace rs k v hfound]
    rfl
  · rw [find?_key_append rs k v (by simpa using hfound)]
    rfl

theorem roundsGet_del_self (rs : List (Option String × MicroRound))
    (k : Option String) : roundsGet (roundsDelete rs k) k = none := by
  unfold roundsGet roundsDelete
  suffices h : (rs.filter (fun e => !(e.1 == k))).find? (fun e => e.1 == k) = none by
    simp [h]
  induction rs with
  | nil => rfl
  | cons e es ih =>
    rw [List.filter_cons]
    by_cases he : (e.1 == k) = true
    · rw [if_neg (by simp [he])]
      exact ih
    · rw [if_pos (by simp [he]), List.find?_cons]
      simp only [eq_false_of_ne_true he]
      exact ih

theorem EngineState.get_set (st : EngineState) (k : Option String)
    (v : MicroRound) : (st.set k v).get k = some v :=
  roundsGet_set_self st.rounds k v

theorem EngineState.get_del (st : EngineState) (k : Option String) :
    (st.del k).get k = none :=
  roundsGet_del_self st.rounds k

/-! ## Lemmas about the message dispatcher -/

theorem handleAgentMessage_rounds (botName : String) (st : EngineState)
    (speaker : String) (parsed : ParsedRecord) (g : Option String) :
    (handleAgentMessage botName st speaker parsed g).1.rounds = st.rounds := by
  unfold handleAgentMessage
  dsimp only
  split_ifs <;> rfl

theorem handleResolutionSignal_rounds (st : EngineState) (speaker : String)
    (parsed : ParsedRecord) :
    (handleResolutionSignal st speaker parsed).1.rounds = st.rounds := by
  unfold handleResolutionSignal
  split_ifs <;> rfl

theorem handleNegotiate_rounds (st : EngineState) (speaker : String)
    (parsed : ParsedRecord) (g : Option String) :
    (handleNegotiate st speaker parsed g).1.rounds = st.rounds := by
  unfold handleNegotiate
  dsimp only
  split_ifs <;> rfl

/-! ## Lemmas about the poll safety net -/

theorem pollStep_db_mem_handled (botId : String) (now : Nat)
    (acc : List PendingRow × List String × List PendingRow)
    (row r2 : PendingRow) (h : r2 ∈ acc.1) (hh : r2.status = "handled") :
    r2 ∈ (pollStep botId now acc row).1 := by
  obtain ⟨db, ids, invoked⟩ := acc
  unfold pollStep
  dsimp only at h ⊢
  split_ifs <;>
    exact List.mem_map.mpr ⟨r2, h, by rw [if_neg (by simp [hh])]⟩

theorem pollFold_db_mem_handled (botId : String) (now : Nat)
    (rows : List PendingRow) :
    ∀ acc (r2 : PendingRow), r2 ∈ acc.1 → r2.status = "handled" →
      r2 ∈ (rows.foldl (pollStep botId now) acc).1 := by
  induction rows with
  | nil =>
    intro acc r2 h _
    exact h
  | cons row rest ih =>
    intro acc r2 h hh
    exact ih _ r2 (pollStep_db_mem_handled botId now acc row r2 h hh) hh

theorem pollFold_invoked_sub (botId : String) (now : Nat)
    (rows : List PendingRow) :
    ∀ acc (r2 : PendingRow), r2 ∈ (rows.foldl (pollStep botId now) acc).2.2 →
      r2 ∈ acc.2.2 ∨ r2 ∈ rows := by
  induction rows with
  | nil =>
    intro acc r2 h
    exact Or.inl h
  | cons row rest ih =>
    intro acc r2 h
    rcases ih _ r2 h with hacc | hrest
    · obtain ⟨db, ids, invoked⟩ := acc
      unfold pollStep at hacc
      dsimp only at hacc
      split_ifs at hacc
      · exact Or.inl hacc
      · rcases List.mem_append.mp hacc with h1 | h2
        · exact Or.inl h1
        · simp only [List.mem_singleton] at h2
          subst h2
          exact Or.inr (List.mem_cons_self _ _)
    · exact Or.inr (List.mem_cons_of_mem _ hrest)

theorem selectLive_props (botId : String) (bootTime : Nat)
    (db1 : List PendingRow) (r : PendingRow)
    (h : r ∈ selectLive botId bootTime db1) :
    r.bot_id = botId ∧ r.status = "pending" ∧ bootTime ≤ r.created_at := by
  unfold selectLive at h
  have h1 := List.take_subset _ _ h
  have h2 := (List.mem_mergeSort).mp h1
  have h3 := List.mem_filter.mp h2
  simpa using h3.2

/-! ## Claim theorems -/

/-- C1: for every pair of micro-proposals `p_a, p_b` and every pair of
distinct names `n_a, n_b`, `coordinationFilter p_a p_b n_a n_b` and
`coordinationFilter p_b p_a n_b n_a` return the same mode, the same winner
and the same runner-up — two peers that see the same two proposals under the
two perspectives always compute the same `(mode, winner, runner_up)`. -/
theorem filter_perspective_symmetric (pa pb : MicroProposal) (na nb : String)
    (h : na ≠ nb) :
    (coordinationFilter pa pb na nb).mode = (coordinationFilter pb pa nb na).mode ∧
    (coordinationFilter pa pb na nb).winner = (coordinationFilter pb pa nb na).winner ∧
    (coordinationFilter pa pb na nb).runnerUp =
      (coordinationFilter pb pa nb na).runnerUp := by
  have hw := filterWinnerPair_swap pa pb na nb h
  refine ⟨?_, ?_, ?_⟩
  · simpa [coordinationFilter] using
      filterModeReason_mode_swap pa pb (filterWinnerPair pa pb na nb).1
        (filterWinnerPair pb pa nb na).1
  · simp [coordinationFilter, hw]
  · simp [coordinationFilter, hw]

theorem filter_perspective_symmetric_witness :
    (("alice" : String) ≠ "bob") ∧
    ((coordinationFilter ⟨"perf", 8/10, ["latency"], true, none⟩
        ⟨"security", 6/10, ["auth"], true, none⟩ "alice" "bob").mode =
      (coordinationFilter ⟨"security", 6/10, ["auth"], true, none⟩
        ⟨"perf", 8/10, ["latency"], true, none⟩ "bob" "alice").mode ∧
      (coordinationFilter ⟨"perf", 8/10, ["latency"], true, none⟩
        ⟨"security", 6/10, ["auth"], true, none⟩ "alice" "bob").winner =
      (coordinationFilter ⟨"security", 6/10, ["auth"], true, none⟩
        ⟨"perf", 8/10, ["latency"], true, none⟩ "bob" "alice").winner ∧
      (coordinationFilter ⟨"perf", 8/10, ["latency"], true, none⟩
        ⟨"security", 6/10, ["auth"], true, none⟩ "alice" "bob").runnerUp =
      (coordinationFilter ⟨"security", 6/10, ["auth"], true, none⟩
        ⟨"perf", 8/10, ["latency"], true, none⟩ "bob" "alice").runnerUp) :=
  ⟨by decide, filter_perspective_symmetric _ _ "alice" "bob" (by decide)⟩

/-- C2: the filter's mode is exactly the first matching rule of the spec's
ordered routing table, evaluated with the angle similarity of the two
proposals and the default thresholds. -/
theorem filter_mode_matches_spec_table (pa pb : MicroProposal) (na nb : String) :
    (coordinationFilter pa pb na nb).mode =
      specRoutingMode pa pb (angleSimilarity pa pb) := by
  have : (coordinationFilter pa pb na nb).mode =
      (filterModeReason pa pb (filterWinnerPair pa pb na nb).1).1 := rfl
  rw [this]
  unfold filterModeReason specRoutingMode
  simp only [CONFIDENCE_GAP_THRESHOLD, ANGLE_OVERLAP_THRESHOLD,
    HIGH_CONFIDENCE_THRESHOLD, LOW_CONFIDENCE_THRESHOLD,
    SYNTHESIS_CONFIDENCE_THRESHOLD]
  split_ifs <;> rfl

/-- C3: `angleSimilarity` is the Jaccard index of the two keyword sets, with
the spec's boundary convention (both empty → 1, exactly one empty → 0), and
its value always lies in [0, 1]. -/
theorem angle_similarity_is_jaccard (a b : MicroProposal) :
    angleSimilarity a b = specJaccard (extractKeywords a) (extractKeywords b) ∧
    (extractKeywords a = ∅ → extractKeywords b = ∅ → angleSimilarity a b = 1) ∧
    (extractKeywords a = ∅ → extractKeywords b ≠ ∅ → angleSimilarity a b = 0) ∧
    (extractKeywords a ≠ ∅ → extractKeywords b = ∅ → angleSimilarity a b = 0) ∧
    0 ≤ angleSimilarity a b ∧ angleSimilarity a b ≤ 1 := by
  have key : angleSimilarity a b =
      specJaccard (extractKeywords a) (extractKeywords b) := by
    unfold angleSimilarity specJaccard
    by_cases ha : extractKeywords a = ∅ <;> by_cases hb : extractKeywords b = ∅ <;>
      simp only [Finset.card_eq_zero, ha, hb] <;> simp_all
  have hbound : 0 ≤ angleSimilarity a b ∧ angleSimilarity a b ≤ 1 := by
    rw [key]
    unfold specJaccard
    split_ifs with h1 h2
    · norm_num
    · norm_num
    · have hsub : (extractKeywords a ∩ extractKeywords b).card ≤
          (extractKeywords a ∪ extractKeywords b).card :=
        Finset.card_le_card (Finset.inter_subset_union)
      have hu : 0 < (extractKeywords a ∪ extractKeywords b).card := by
        rw [Finset.card_pos]
        rcases not_and_or.mp h1 with ha | hb
        · exact Finset.Nonempty.inl (Finset.nonempty_iff_ne_empty.mpr ha)
        · exact Finset.Nonempty.inr (Finset.nonempty_iff_ne_empty.mpr hb)
      constructor
      · positivity
      · rw [div_le_one (by exact_mod_cast hu)]
        exact_mod_cast hsub
  refine ⟨key, ?_, ?_, ?_, hbound⟩
  · intro ha hb
    rw [key]
    unfold specJaccard
    rw [if_pos ⟨ha, hb⟩]
  · intro ha hb
    rw [key]
    unfold specJaccard
    rw [if_neg (by simp [hb]), if_pos (Or.inl ha)]
  · intro ha hb
    rw [key]
    unfold specJaccard
    rw [if_neg (by simp [ha]), if_pos (Or.inr hb)]

theorem angle_similarity_is_jaccard_witness :
    (extractKeywords ⟨"", 1/2, [], true, none⟩ = ∅) ∧
    (extractKeywords ⟨"hello world", 1/2, [], true, none⟩ ≠ ∅) ∧
    angleSimilarity ⟨"", 1/2, [], true, none⟩
      ⟨"hello world", 1/2, [], true, none⟩ = 0 ∧
    angleSimilarity ⟨"", 1/2, [], true, none⟩ ⟨"", 1/2, ["ab"], true, none⟩ = 1 :=
  ⟨by decide, by decide,
    (angle_similarity_is_jaccard ⟨"", 1/2, [], true, none⟩
      ⟨"hello world", 1/2, [], true, none⟩).2.2.1 (by decide) (by decide),
    (angle_similarity_is_jaccard ⟨"", 1/2, [], true, none⟩
      ⟨"", 1/2, ["ab"], true, none⟩).2.1 (by decide) (by decide)⟩

/-- C4: when the confidences differ by less than ε = 0.01 the winner is the
lexicographically smaller name and the runner-up the other; when they differ
by at least ε the winner is the name whose proposal has the strictly higher
confidence (and the runner-up the other). -/
theorem winner_selection_spec (pa pb : MicroProposal) (na nb : String) :
    (|pa.confidence - pb.confidence| < CONFIDENCE_EPSILON →
      (coordinationFilter pa pb na nb).winner = min na nb ∧
      (coordinationFilter pa pb na nb).runnerUp = some (max na nb)) ∧
    (CONFIDENCE_EPSILON ≤ |pa.confidence - pb.confidence| →
      (pb.confidence < pa.confidence →
        (coordinationFilter pa pb na nb).winner = na ∧
        (coordinationFilter pa pb na nb).runnerUp = some nb) ∧
      (pa.confidence < pb.confidence →
        (coordinationFilter pa pb na nb).winner = nb ∧
        (coordinationFilter pa pb na nb).runnerUp = some na)) := by
  have hwin : (coordinationFilter pa pb na nb).winner =
      (filterWinnerPair pa pb na nb).1 := rfl
  have hru : (coordinationFilter pa pb na nb).runnerUp =
      some (filterWinnerPair pa pb na nb).2 := rfl
  constructor
  · intro htie
    rw [hwin, hru]
    unfold filterWinnerPair
    rw [if_pos htie]
    rcases lt_trichotomy na nb with hlt | heq | hgt
    · simp [hlt, min_eq_left hlt.le, max_eq_right hlt.le]
    · subst heq
      simp
    · have hne : ¬ na < nb := lt_asymm hgt
      have hne2 : ¬ nb = na := ne_of_lt hgt
      simp [hne, hne2, min_eq_right hgt.le, max_eq_left hgt.le]
  · intro hgap
    have hnottie : ¬ |pa.confidence - pb.confidence| < CONFIDENCE_EPSILON :=
      not_lt.mpr hgap
    constructor
    · intro hcmp
      rw [hwin, hru]
      unfold filterWinnerPair
      rw [if_neg hnottie, if_pos (by linarith)]
      exact ⟨rfl, rfl⟩
    · intro hcmp
      rw [hwin, hru]
      unfold filterWinnerPair
      rw [if_neg hnottie, if_neg (by linarith)]
      exact ⟨rfl, rfl⟩

theorem winner_selection_spec_witness :
    (|(7/10 : ℚ) - 705/1000| < CONFIDENCE_EPSILON) ∧
    ((coordinationFilter ⟨"x", 7/10, [], true, none⟩ ⟨"y", 705/1000, [], true, none⟩
        "bob" "alice").winner = min "bob" "alice" ∧
      (coordinationFilter ⟨"x", 7/10, [], true, none⟩ ⟨"y", 705/1000, [], true, none⟩
        "bob" "alice").runnerUp = some (max "bob" "alice")) ∧
    (CONFIDENCE_EPSILON ≤ |(85/100 : ℚ) - 4/10|) ∧
    ((coordinationFilter ⟨"x", 85/100, [], true, none⟩ ⟨"y", 4/10, [], true, none⟩
        "bob" "alice").winner = "bob" ∧
      (coordinationFilter ⟨"x", 85/100, [], true, none⟩ ⟨"y", 4/10, [], true, none⟩
        "bob" "alice").runnerUp = some "alice") :=
  ⟨by norm_num [CONFIDENCE_EPSILON, abs_lt],
    (winner_selection_spec ⟨"x", 7/10, [], true, none⟩ ⟨"y", 705/1000, [], true, none⟩
      "bob" "alice").1 (by norm_num [CONFIDENCE_EPSILON, abs_lt]),
    by norm_num [CONFIDENCE_EPSILON, le_abs],
    ((winner_selection_spec ⟨"x", 85/100, [], true, none⟩ ⟨"y", 4/10, [], true, none⟩
      "bob" "alice").2 (by norm_num [CONFIDENCE_EPSILON, le_abs])).1 (by norm_num)⟩

/-- C7: when micro-proposal generation returns null for a fresh round, the
engine posts no record at all (in particular no `micro_propose`), deletes the
round state, cancels its deadline timer, and raises a fail-open decision with
`should_respond = true` and no `synthesize_context`; applying that decision
to a held message dispatches the original text with no prefix. -/
theorem generator_failure_fail_open (botName : String) (st : EngineState)
    (parsed : ParsedRecord) (hist recent : Option String)
    (hfresh : st.get parsed.round_id = none) :
    (handleRoundStart botName st parsed hist recent none).1.get parsed.round_id =
      none ∧
    ((handleRoundStart botName st parsed hist recent none).2.filter
      Effect.isPost) = [] ∧
    Effect.clearDeadline parsed.round_id ∈
      (handleRoundStart botName st parsed hist recent none).2 ∧
    Effect.decisionsOf (handleRoundStart botName st parsed hist recent none).2 =
      [{ roundId := parsed.round_id
         triggerMessageId := jsOrNone parsed.trigger_message_id
         shouldRespond := true
         sourceChatId := jsOrNone parsed.source_chat_id }] ∧
    (∀ (ctx : HolderCtx) (hst : HolderState) (e : PendingEntry)
        (d : DispatchDecision),
      Effect.decision d ∈ (handleRoundStart botName st parsed hist recent none).2 →
      hst.pending = some e → hst.dispatched = false →
      d.triggerMessageId = some ctx.messageId →
      (applyEvent ctx hst (HolderEvent.decision d)).dispatchLog =
        hst.dispatchLog ++ [(e.chatId, e.text, e.userId)]) := by
  unfold handleRoundStart
  simp only [hfresh, Option.isSome_none, Bool.false_eq_true, if_false,
    EngineState.get_set]
  refine ⟨?_, ?_, ?_, ?_, ?_⟩
  · exact EngineState.get_del _ _
  · rfl
  · simp
  · rfl
  · intro ctx hst e d hd hp hdisp htrig
    have hdval : d =
        { roundId := parsed.round_id
          triggerMessageId := jsOrNone parsed.trigger_message_id
          shouldRespond := true
          sourceChatId := jsOrNone parsed.source_chat_id } := by
      simpa using hd
    subst hdval
    simp [applyEvent, hp, hdisp]
    rw [if_pos (show jsOrNone parsed.trigger_message_id = some ctx.messageId from by
      simpa using htrig)]

theorem generator_failure_fail_open_witness :
    (({} : EngineState).get (some "r1") = none) ∧
    (handleRoundStart "alice" {}
      { round_id := some "r1", intentType := some "round_start",
        trigger_message_id := some "m1", trigger_content := some "hi",
        source_chat_id := some "c1" } (some "") (some "") none).1.get
        (some "r1") = none :=
  ⟨rfl,
    (generator_failure_fail_open "alice" {}
      { round_id := some "r1", intentType := some "round_start",
        trigger_message_id := some "m1", trigger_content := some "hi",
        source_chat_id := some "c1" } (some "") (some "") rfl).1⟩

/-- C8 counterexample: a `micro_propose` record with its required `proposal`
field missing is not dropped — handling it alters the round state, replacing
the buffered peer proposal (previously absent) by the default proposal. -/
theorem micro_propose_missing_field_alters_state :
    ((handleMicroPropose "alice"
        { rounds := [(some "r1",
            { roundId := some "r1", triggerContent := "t",
              triggerMessageId := some "m1", sourceChatId := none })] }
        "bob" (some "r1") none).1.get (some "r1")).map (·.otherProposal) =
      some (some defaultPeerProposal) ∧
    (({ rounds := [(some "r1",
          { roundId := some "r1", triggerContent := "t",
            triggerMessageId := some "m1", sourceChatId := none })] }
        : EngineState).get (some "r1")).map (·.otherProposal) = some none :=
  ⟨rfl, rfl⟩

/-- C8 (amended): inbound records that are unparseable, of unknown kind, or
missing the fields their branch requires are handled totally and — outside
the `round_start` and `micro_propose` branches — never alter round state,
with two default-substitution exceptions.  A `micro_propose` record missing
its `proposal` field is not dropped: it is processed exactly as if it
carried the default proposal `{angle: "", confidence: 0.5, covers: [],
solo_sufficient: true}`.  A `round_start` record missing its
`trigger_content`, `trigger_message_id` or `source_chat_id` is not dropped
either: it is processed exactly as if the missing content were the empty
string (the absent ids being null), and for a fresh round id with a
successful generator it inserts a new round carrying those substituted
defaults — even a missing `round_id` keys the round under the undefined
id. -/
theorem malformed_records_amended (botName : String) (st : EngineState)
    (msg : ParsedCoordinationMessage) (g hist recent : Option String)
    (gen : Option MicroProposal)
    (hmsg : ∀ p, msg.parsed = some p →
      p.intentType ≠ some "round_start" ∧
      ¬(p.kind = some "micro_propose" ∧ isTruthyStr p.round_id)) :
    (handleMessage botName st msg g hist recent gen).1.rounds = st.rounds ∧
    (∀ (st2 : EngineState) (speaker : String) (rid : Option String),
      handleMicroPropose botName st2 speaker rid none =
        handleMicroPropose botName st2 speaker rid (some defaultPeerProposal)) ∧
    (∀ (st2 : EngineState) (p : ParsedRecord) (h2 r2 : Option String)
        (g2 : Option MicroProposal), p.trigger_content = none →
      handleRoundStart botName st2 p h2 r2 g2 =
        handleRoundStart botName st2 { p with trigger_content := some "" }
          h2 r2 g2) ∧
    (∀ (st2 : EngineState) (p : ParsedRecord) (h2 r2 : Option String)
        (prop : MicroProposal),
      st2.get p.round_id = none → p.trigger_content = none →
      p.trigger_message_id = none → p.source_chat_id = none →
      ((handleRoundStart botName st2 p h2 r2 (some prop)).1.get
          p.round_id).map
        (fun r => (r.triggerContent, r.triggerMessageId, r.sourceChatId)) =
        some ("", none, none)) := by
  refine ⟨?_, ?_, ?_, ?_⟩
  · unfold handleMessage
    by_cases hid : msg.id = ""
    · rw [if_pos hid]
    · rw [if_neg hid]
      by_cases hseen : msg.id ∈ st.seenMessageIds
      · rw [if_pos hseen]
      · rw [if_neg hseen]
        match hparsed : msg.parsed with
        | none =>
          try dsimp only
          split_ifs <;> rfl
        | some p =>
          obtain ⟨hintent, hmicro⟩ := hmsg p hparsed
          dsimp only
          rw [if_neg hintent, if_neg hmicro]
          split_ifs <;>
            first
            | rfl
            | exact handleAgentMessage_rounds botName _ msg.speaker p g
            | exact handleResolutionSignal_rounds _ msg.speaker p
            | exact handleNegotiate_rounds _ msg.speaker p g
  · intro st2 speaker rid
    rfl
  · intro st2 p h2 r2 g2 htc
    simp [handleRoundStart, htc, jsOrStr]
  · intro st2 p h2 r2 prop hfresh htc htm hsc
    unfold handleRoundStart
    simp only [hfresh, Option.isSome_none, Bool.false_eq_true, if_false,
      EngineState.get_set]
    simp [EngineState.get_set, htc, htm, hsc, jsOrStr, jsOrNone]

theorem malformed_records_amended_witness :
    ((∀ p, (some { kind := some "wibble", content := some "?" }
        : Option ParsedRecord) = some p →
      p.intentType ≠ some "round_start" ∧
      ¬(p.kind = some "micro_propose" ∧ isTruthyStr p.round_id))) ∧
    (handleMessage "alice" {}
      { id := "x1", speaker := "bob", content := "junk",
        parsed := some { kind := some "wibble", content := some "?" },
        messageType := "bot_coordination" } none none none none).1.rounds =
      ({} : EngineState).rounds ∧
    (({} : EngineState).get (some "r9") = none) ∧
    ((handleRoundStart "alice" {}
        { intentType := some "round_start", round_id := some "r9" }
        none none (some defaultPeerProposal)).1.get (some "r9")).map
      (fun r => (r.triggerContent, r.triggerMessageId, r.sourceChatId)) =
      some ("", none, none) :=
  ⟨by intro p hp; cases hp; exact ⟨by simp, by simp [isTruthyStr]⟩,
    (malformed_records_amended "alice" {}
      { id := "x1", speaker := "bob", content := "junk",
        parsed := some { kind := some "wibble", content := some "?" },
        messageType := "bot_coordination" } none none none none
      (by intro p hp; cases hp; exact ⟨by simp, by simp [isTruthyStr]⟩)).1,
    rfl,
    (malformed_records_amended "alice" {}
      { id := "x1", speaker := "bob", content := "junk",
        parsed := some { kind := some "wibble", content := some "?" },
        messageType := "bot_coordination" } none none none none
      (by intro p hp; cases hp; exact ⟨by simp, by simp [isTruthyStr]⟩)).2.2.2
      {} { intentType := some "round_start", round_id := some "r9" }
      none none defaultPeerProposal rfl rfl rfl rfl⟩

/-- C10: `generateMicroProposal` is total over any gateway output, and every
proposal it returns has confidence in [0, 1]: a numeric `confidence` field is
clamped into [0, 1], a non-numeric one defaults to 0.5, and output with no
JSON object yields the fallback proposal with confidence 0.5 and empty
covers. -/
theorem generate_micro_proposal_safe (parse : String → Option JVal)
    (haiku gw : Option String) :
    (∀ p, generateMicroProposal parse haiku gw = some p →
      0 ≤ p.confidence ∧ p.confidence ≤ 1) ∧
    (∀ content, firstBraceMatch content = none →
      microProposalFromContent parse content = fallbackProposal content) ∧
    (∀ content, (fallbackProposal content).confidence = 1/2 ∧
      (fallbackProposal content).covers = []) ∧
    (∀ content s j q, firstBraceMatch content = some s → parse s = some j →
      jGet j "confidence" = some (JVal.num q) →
      (microProposalFromContent parse content).confidence = max 0 (min 1 q)) ∧
    (∀ content s j, firstBraceMatch content = some s → parse s = some j →
      (∀ q, ¬ jGet j "confidence" = some (JVal.num q)) →
      (microProposalFromContent parse content).confidence = 1/2) := by
  have hnorm : ∀ content j, 0 ≤ (normalizeProposal content j).confidence ∧
      (normalizeProposal content j).confidence ≤ 1 := by
    intro content j
    unfold normalizeProposal
    rcases hc : jGet j "confidence" with _ | v
    · simp only [hc]
      norm_num
    · rcases v with _ | b | q | s2 | l | fs <;> simp only [hc] <;> norm_num
  have hmain : ∀ content,
      0 ≤ (microProposalFromContent parse content).confidence ∧
      (microProposalFromContent parse content).confidence ≤ 1 := by
    intro content
    unfold microProposalFromContent
    rcases hfb : firstBraceMatch content with _ | s <;> simp only [hfb]
    · unfold fallbackProposal
      norm_num
    · rcases hps : parse s with _ | j <;> simp only [hps]
      · unfold fallbackProposal
        norm_num
      · exact hnorm content j
  refine ⟨?_, ?_, ?_, ?_, ?_⟩
  · intro p hp
    unfold generateMicroProposal at hp
    rcases haiku with _ | s
    · rcases gw with _ | t
      · simp at hp
      · dsimp only at hp
        by_cases ht : t = ""
        · rw [if_pos ht] at hp
          simp at hp
        · rw [if_neg ht] at hp
          simp only [Option.map_some'] at hp
          obtain rfl := (Option.some.injEq _ _).mp hp
          exact hmain t
    · dsimp only at hp
      by_cases hs : s = ""
      · rw [if_pos hs] at hp
        rcases gw with _ | t
        · simp at hp
        · dsimp only at hp
          by_cases ht : t = ""
          · rw [if_pos ht] at hp
            simp at hp
          · rw [if_neg ht] at hp
            simp only [Option.map_some'] at hp
            obtain rfl := (Option.some.injEq _ _).mp hp
            exact hmain t
      · rw [if_neg hs] at hp
        simp only [Option.map_some'] at hp
        obtain rfl := (Option.some.injEq _ _).mp hp
        exact hmain s
  · intro content h
    unfold microProposalFromContent
    rw [h]
  · intro content
    exact ⟨rfl, rfl⟩
  · intro content s j q h1 h2 h3
    unfold microProposalFromContent
    simp only [h1, h2]
    unfold normalizeProposal
    simp only [h3]
  · intro content s j h1 h2 h3
    unfold microProposalFromContent
    simp only [h1, h2]
    unfold normalizeProposal
    rcases hc : jGet j "confidence" with _ | v
    · simp only [hc]
    · rcases v with _ | b | q | s2 | l | fs <;> simp only [hc]
      exact absurd hc (h3 q)

/-- C9: every `pending_dispatches` row older than the boot timestamp is
bulk-marked handled by the poll path without the callback ever being invoked
for it; the rows that are claimed and processed all have `created_at` at or
after boot (and are this bot's live pending rows). -/
theorem stale_quarantine (botId : String) (bootTime now : Nat)
    (processedIds : List String) (db : List PendingRow) :
    (∀ r ∈ db, r.bot_id = botId → r.status = "pending" →
      r.created_at < bootTime →
      ∃ r2 ∈ (pollPending botId bootTime now processedIds db).db,
        r2.rowId = r.rowId ∧ r2.message_id = r.message_id ∧
        r2.status = "handled") ∧
    (∀ r2 ∈ (pollPending botId bootTime now processedIds db).invoked,
      r2.bot_id = botId ∧ r2.status = "pending" ∧ bootTime ≤ r2.created_at) := by
  constructor
  · intro r hr hbot hstat hcreated
    have h1 : ({ r with status := "handled", handled_at := some now } : PendingRow) ∈
        quarantineStale botId bootTime now db :=
      List.mem_map.mpr ⟨r, hr, by rw [if_pos ⟨hbot, hstat, hcreated⟩]⟩
    have h2 : ({ r with status := "handled", handled_at := some now } : PendingRow) ∈
        ((selectLive botId bootTime (quarantineStale botId bootTime now db)).foldl
          (pollStep botId now)
          (quarantineStale botId bootTime now db, processedIds,
            ([] : List PendingRow))).1 :=
      pollFold_db_mem_handled botId now _ _ _ h1 rfl
    refine ⟨{ r with status := "handled", handled_at := some now }, ?_, rfl, rfl, rfl⟩
    show _ ∈ cleanupHandled botId now _
    refine List.mem_filter.mpr ⟨h2, ?_⟩
    have hlt : ¬ (now + 3600000 < now) := by omega
    simp [hlt]
  · intro r2 hr2
    have hr2' : r2 ∈
        ((selectLive botId bootTime (quarantineStale botId bootTime now db)).foldl
          (pollStep botId now)
          (quarantineStale botId bootTime now db, processedIds,
            ([] : List PendingRow))).2.2 := hr2
    rcases pollFold_invoked_sub botId now _ _ r2 hr2' with h | h
    · simp at h
    · exact selectLive_props botId bootTime _ r2 h

/-! ## The holder invariant -/

theorem holderInv_init (ctx : HolderCtx) : HolderInv ctx {} := by
  unfold HolderInv
  refine ⟨by simp, fun _ => rfl, ?_⟩
  cases firstMention ctx.text with
  | none => exact fun _ => rfl
  | some m => exact ⟨rfl, rfl, rfl, fun _ => rfl⟩

/-- A non-delivery event is a no-op on a state with no pending entry and no
outstanding synthesis wait. -/
theorem applyEvent_inert (ctx : HolderCtx) (st : HolderState) (ev : HolderEvent)
    (hpn : st.pending = none) (hwn : st.synthWaits = [])
    (hne : ev ≠ HolderEvent.deliver) : applyEvent ctx st ev = st := by
  cases ev with
  | deliver => exact absurd rfl hne
  | backstopFire =>
    unfold applyEvent
    rw [hpn]
  | deferFire =>
    unfold applyEvent
    rw [hpn]
  | decision d =>
    unfold applyEvent
    split_ifs <;> simp [hpn]
  | synthesisComplete i sink =>
    unfold applyEvent
    simp [hwn]
  | synthesisError i =>
    unfold applyEvent
    simp [hwn]

/-- Every event is a no-op on the initial state, delivery apart. -/
theorem applyEvent_default (ctx : HolderCtx) (ev : HolderEvent)
    (hne : ev ≠ HolderEvent.deliver) : applyEvent ctx {} ev = {} :=
  applyEvent_inert ctx {} ev rfl rfl hne

/-- The invariant is preserved by every holder event. -/
theorem holderInv_step (ctx : HolderCtx) (st : HolderState) (ev : HolderEvent)
    (h : HolderInv ctx st) : HolderInv ctx (applyEvent ctx st ev) := by
  obtain ⟨hlen, hinit, hroute⟩ := h
  have hPendContra : ∀ {pe : PendingEntry}, st.pending = some pe →
      ¬ st.processed = false := by
    intro pe hp hpf
    rw [hinit hpf] at hp
    exact Option.noConfusion hp
  have hWaitContra : ∀ {i : Nat} {w : WaitForResponse},
      st.synthWaits.get? i = some w → ¬ st.processed = false := by
    intro i w hg hpf
    rw [hinit hpf] at hg
    simp at hg
  by_cases hdel : ev = HolderEvent.deliver
  · subst hdel
    by_cases hproc : st.processed = true
    · have heq : applyEvent ctx st HolderEvent.deliver = st := by
        unfold applyEvent
        rw [if_pos hproc]
      rw [heq]
      exact ⟨hlen, hinit, hroute⟩
    · have hst : st = {} := hinit (by simpa using hproc)
      subst hst
      unfold applyEvent HolderInv
      rcases hfm : firstMention ctx.text with _ | m <;> simp only [hfm]
      · refine ⟨by simp, ?_, ?_⟩
        · intro hpf
          simp at hpf
        · intro _
          rfl
      · by_cases hm : m.toLower = ctx.botName.toLower
        · rw [if_pos hm]
          refine ⟨by simp, ?_, rfl, rfl, rfl, ?_⟩
          · intro hpf
            simp at hpf
          · intro hmm
            exact absurd hm hmm
        · rw [if_neg hm]
          refine ⟨by simp, ?_, rfl, rfl, rfl, fun _ => rfl⟩
          intro hpf
          simp at hpf
  · -- non-delivery events
    rcases hfm : firstMention ctx.text with _ | m
    · -- hold route
      have hrouteOrig := hroute
      simp only [hfm] at hroute
      have hInvOf : ∀ st2 : HolderState, st2.processed = st.processed →
          st2.dispatchLog.length ≤ 1 →
          (st2.dispatched = false → st2.dispatchLog = []) →
          (st.pending = none → st.synthWaits ≠ [] → True) →
          (st2.processed = false → st2 = {}) →
          HolderInv ctx st2 := by
        intro st2 _ h1 h3 _ h2
        exact ⟨h1, h2, by simp only [hfm]; exact h3⟩
      clear hInvOf
      have hInv3 : ∀ st2 : HolderState, st2.dispatchLog.length ≤ 1 →
          (st2.processed = false → st2 = {}) →
          (st2.dispatched = false → st2.dispatchLog = []) →
          HolderInv ctx st2 := by
        intro st2 h1 h2 h3
        exact ⟨h1, h2, by simp only [hfm]; exact h3⟩
      cases ev with
      | deliver => exact absurd rfl hdel
      | backstopFire =>
        rcases hp : st.pending with _ | pe
        · rw [show applyEvent ctx st HolderEvent.backstopFire = st from by
            unfold applyEvent; rw [hp]]
          exact ⟨hlen, hinit, hrouteOrig⟩
        · by_cases hd : st.dispatched = true
          · by_cases ht : pe.timer = some TimerKind.backstop
            · have heq : applyEvent ctx st HolderEvent.backstopFire =
                  { st with
                      pending := none } := by
                unfold applyEvent
                simp [hp, ht, hd]
              rw [heq]
              refine hInv3 _ (by simpa using hlen) ?_ ?_
              · intro hpf
                exact absurd hpf (hPendContra hp)
              · intro hc
                rw [show ({ st with
                              pending := none } : HolderState).dispatched =
                  st.dispatched from rfl, hd] at hc
                exact absurd hc (by simp)
            · rw [show applyEvent ctx st HolderEvent.backstopFire = st from by
                unfold applyEvent; simp [hp, ht]]
              exact ⟨hlen, hinit, hrouteOrig⟩
          · have hd' : st.dispatched = false := by simpa using hd
            by_cases ht : pe.timer = some TimerKind.backstop
            · have heq : applyEvent ctx st HolderEvent.backstopFire =
                  { st with
                      pending := none
                      dispatched := true
                      dispatchLog := st.dispatchLog ++
                      [(pe.chatId, pe.text, pe.userId)] } := by
                unfold applyEvent
                simp [hp, ht, hd']
              rw [heq]
              refine hInv3 _ ?_ ?_ ?_
              · simp [hroute hd']
              · intro hpf
                exact absurd hpf (hPendContra hp)
              · intro hc
                simp at hc
            · rw [show applyEvent ctx st HolderEvent.backstopFire = st from by
                unfold applyEvent; simp [hp, ht]]
              exact ⟨hlen, hinit, hrouteOrig⟩
      | deferFire =>
        rcases hp : st.pending with _ | pe
        · rw [show applyEvent ctx st HolderEvent.deferFire = st from by
            unfold applyEvent; rw [hp]]
          exact ⟨hlen, hinit, hrouteOrig⟩
        · by_cases hd : st.dispatched = true
          · by_cases ht : pe.timer = some TimerKind.deferBackup
            · have heq : applyEvent ctx st HolderEvent.deferFire =
                  { st with
                      pending := none } := by
                unfold applyEvent
                simp [hp, ht, hd]
              rw [heq]
              refine hInv3 _ (by simpa using hlen) ?_ ?_
              · intro hpf
                exact absurd hpf (hPendContra hp)
              · intro hc
                rw [show ({ st with
                              pending := none } : HolderState).dispatched =
                  st.dispatched from rfl, hd] at hc
                exact absurd hc (by simp)
            · rw [show applyEvent ctx st HolderEvent.deferFire = st from by
                unfold applyEvent; simp [hp, ht]]
              exact ⟨hlen, hinit, hrouteOrig⟩
          · have hd' : st.dispatched = false := by simpa using hd
            by_cases ht : pe.timer = some TimerKind.deferBackup
            · have heq : applyEvent ctx st HolderEvent.deferFire =
                  { st with
                      pending := none
                      dispatched := true
                      dispatchLog := st.dispatchLog ++
                      [(pe.chatId, pe.text, pe.userId)] } := by
                unfold applyEvent
                simp [hp, ht, hd']
              rw [heq]
              refine hInv3 _ ?_ ?_ ?_
              · simp [hroute hd']
              · intro hpf
                exact absurd hpf (hPendContra hp)
              · intro hc
                simp at hc
            · rw [show applyEvent ctx st HolderEvent.deferFire = st from by
                unfold applyEvent; simp [hp, ht]]
              exact ⟨hlen, hinit, hrouteOrig⟩
      | decision d =>
        by_cases htr : d.triggerMessageId = some ctx.messageId
        · rcases hp : st.pending with _ | pe
          · rw [show applyEvent ctx st (HolderEvent.decision d) = st from by
              unfold applyEvent; split_ifs <;> simp [hp]]
            exact ⟨hlen, hinit, hrouteOrig⟩
          · rcases hwf : d.waitForResponse with _ | w
            · by_cases hsr : d.shouldRespond = true
              · by_cases hd : st.dispatched = true
                · rw [show applyEvent ctx st (HolderEvent.decision d) = st from by
                    unfold applyEvent; simp [htr, hp, hwf, hsr, hd]]
                  exact ⟨hlen, hinit, hrouteOrig⟩
                · have hd' : st.dispatched = false := by simpa using hd
                  have heq : applyEvent ctx st (HolderEvent.decision d) =
                      { st with
                          pending := none
                          dispatched := true
                          dispatchLog := st.dispatchLog ++
                          [(pe.chatId,
                            match d.synthesizeContext with
                            | some c => c ++ "\n\n" ++ pe.text
                            | none => pe.text, pe.userId)] } := by
                    unfold applyEvent
                    simp [htr, hp, hwf, hsr, hd']
                  rw [heq]
                  refine hInv3 _ ?_ ?_ ?_
                  · simp [hroute hd']
                  · intro hpf
                    exact absurd hpf (hPendContra hp)
                  · intro hc
                    simp at hc
              · have hsr' : d.shouldRespond = false := by simpa using hsr
                by_cases hcp : d.cancelPending = true
                · have heq : applyEvent ctx st (HolderEvent.decision d) =
                      { st with
                          pending := none
                          dispatched := true } := by
                    unfold applyEvent
                    simp [htr, hp, hwf, hsr', hcp]
                  rw [heq]
                  refine hInv3 _ (by simpa using hlen) ?_ ?_
                  · intro hpf
                    exact absurd hpf (hPendContra hp)
                  · intro hc
                    simp at hc
                · have hcp' : d.cancelPending = false := by simpa using hcp
                  have heq : applyEvent ctx st (HolderEvent.decision d) =
                      { st with pending := some { pe with timer := some TimerKind.deferBackup } } := by
                    unfold applyEvent
                    simp [htr, hp, hwf, hsr', hcp']
                  rw [heq]
                  refine hInv3 _ (by simpa using hlen) ?_ ?_
                  · intro hpf
                    exact absurd hpf (hPendContra hp)
                  · intro hc
                    exact hroute (by simpa using hc)
            · have heq : applyEvent ctx st (HolderEvent.decision d) =
                  { st with
                    pending := some { pe with timer := none }
                    synthWaits := st.synthWaits ++ [w] } := by
                unfold applyEvent
                simp [htr, hp, hwf]
              rw [heq]
              refine hInv3 _ (by simpa using hlen) ?_ ?_
              · intro hpf
                exact absurd hpf (hPendContra hp)
              · intro hc
                exact hroute (by simpa using hc)
        · rw [show applyEvent ctx st (HolderEvent.decision d) = st from by
            unfold applyEvent; simp [htr]]
          exact ⟨hlen, hinit, hrouteOrig⟩
      | synthesisComplete i sink =>
        rcases hg : st.synthWaits.get? i with _ | w
        · rw [show applyEvent ctx st (HolderEvent.synthesisComplete i sink) =
              st from by unfold applyEvent; simp [← List.get?_eq_getElem?, hg]]
          exact ⟨hlen, hinit, hrouteOrig⟩
        · rcases hp : st.pending with _ | pe
          · have heq : applyEvent ctx st (HolderEvent.synthesisComplete i sink) =
                { st with
                    synthWaits := st.synthWaits.eraseIdx i } := by
              unfold applyEvent
              simp [← List.get?_eq_getElem?, hg, hp]
            rw [heq]
            refine hInv3 _ (by simpa using hlen) ?_ ?_
            · intro hpf
              exact absurd hpf (hWaitContra hg)
            · intro hc
              exact hroute (by simpa using hc)
          · by_cases hd : st.dispatched = true
            · have heq : applyEvent ctx st (HolderEvent.synthesisComplete i sink) =
                  { st with
                      synthWaits := st.synthWaits.eraseIdx i } := by
                unfold applyEvent
                simp [← List.get?_eq_getElem?, hg, hp, hd]
              rw [heq]
              refine hInv3 _ (by simpa using hlen) ?_ ?_
              · intro hpf
                exact absurd hpf (hPendContra hp)
              · intro hc
                rw [show ({ st with synthWaits := st.synthWaits.eraseIdx i }
                  : HolderState).dispatched = st.dispatched from rfl, hd] at hc
                exact absurd hc (by simp)
            · have hd' : st.dispatched = false := by simpa using hd
              have heq : applyEvent ctx st (HolderEvent.synthesisComplete i sink) =
                  { st with
                      pending := none
                      dispatched := true
                      synthWaits := st.synthWaits.eraseIdx i,
                      dispatchLog := st.dispatchLog ++
                      [(pe.chatId,
                        (match waitForResponseSummary sink w.roundId w.winnerName with
                          | some resp => synthesisFoundCtx w resp
                          | none => synthesisFallbackCtx w) ++ "\n\n" ++ pe.text,
                        pe.userId)] } := by
                unfold applyEvent
                simp [← List.get?_eq_getElem?, hg, hp, hd']
              rw [heq]
              refine hInv3 _ ?_ ?_ ?_
              · simp [hroute hd']
              · intro hpf
                exact absurd hpf (hPendContra hp)
              · intro hc
                simp at hc
      | synthesisError i =>
        rcases hg : st.synthWaits.get? i with _ | w
        · rw [show applyEvent ctx st (HolderEvent.synthesisError i) = st from by
            unfold applyEvent; simp [← List.get?_eq_getElem?, hg]]
          exact ⟨hlen, hinit, hrouteOrig⟩
        · rcases hp : st.pending with _ | pe
          · have heq : applyEvent ctx st (HolderEvent.synthesisError i) =
                { st with
                    synthWaits := st.synthWaits.eraseIdx i } := by
              unfold applyEvent
              simp [← List.get?_eq_getElem?, hg, hp]
            rw [heq]
            refine hInv3 _ (by simpa using hlen) ?_ ?_
            · intro hpf
              exact absurd hpf (hWaitContra hg)
            · intro hc
              exact hroute (by simpa using hc)
          · by_cases hd : st.dispatched = true
            · have heq : applyEvent ctx st (HolderEvent.synthesisError i) =
                  { st with
                      synthWaits := st.synthWaits.eraseIdx i } := by
                unfold applyEvent
                simp [← List.get?_eq_getElem?, hg, hp, hd]
              rw [heq]
              refine hInv3 _ (by simpa using hlen) ?_ ?_
              · intro hpf
                exact absurd hpf (hPendContra hp)
              · intro hc
                rw [show ({ st with synthWaits := st.synthWaits.eraseIdx i }
                  : HolderState).dispatched = st.dispatched from rfl, hd] at hc
                exact absurd hc (by simp)
            · have hd' : st.dispatched = false := by simpa using hd
              have heq : applyEvent ctx st (HolderEvent.synthesisError i) =
                  { st with
                      pending := none
                      dispatched := true
                      synthWaits := st.synthWaits.eraseIdx i,
                      dispatchLog := st.dispatchLog ++
                      [(pe.chatId, pe.text, pe.userId)] } := by
                unfold applyEvent
                simp [← List.get?_eq_getElem?, hg, hp, hd']
              rw [heq]
              refine hInv3 _ ?_ ?_ ?_
              · simp [hroute hd']
              · intro hpf
                exact absurd hpf (hPendContra hp)
              · intro hc
                simp at hc
    · -- mention route: nothing but delivery ever happens
      simp only [hfm] at hroute
      obtain ⟨hpn, hwn, hdn, hlogm⟩ := hroute
      rw [applyEvent_inert ctx st ev hpn hwn hdel]
      refine ⟨hlen, hinit, ?_⟩
      simp only [hfm]
      exact ⟨hpn, hwn, hdn, hlogm⟩


/-- C6: applying a `should_respond = false` decision carrying
`wait_for_response` to a held message cancels the backstop timer, keeps the
pending entry, and starts a wait; when the wait completes having found the
winner's response summary matching `(round_id, winner_name)` the held text is
dispatched with the synthesis context containing the winner's reply, and when
it completes by timeout the parallel-style fallback context is used — in both
cases the message is marked dispatched and the entry removed. -/
theorem synthesis_wait_behavior (ctx : HolderCtx) (st : HolderState)
    (d : DispatchDecision) (e : PendingEntry) (w : WaitForResponse)
    (hp : st.pending = some e)
    (htrig : d.triggerMessageId = some ctx.messageId)
    (_hsr : d.shouldRespond = false)
    (hw : d.waitForResponse = some w) :
    ((applyEvent ctx st (HolderEvent.decision d)).pending =
        some { e with timer := none } ∧
      (applyEvent ctx st (HolderEvent.decision d)).synthWaits =
        st.synthWaits ++ [w] ∧
      (applyEvent ctx st (HolderEvent.decision d)).dispatched = st.dispatched ∧
      (applyEvent ctx st (HolderEvent.decision d)).dispatchLog =
        st.dispatchLog) ∧
    (∀ (st2 : HolderState) (e2 : PendingEntry) (i : Nat)
        (sink : List SummaryRow) (resp : String),
      st2.pending = some e2 → st2.dispatched = false →
      st2.synthWaits.get? i = some w →
      waitForResponseSummary sink w.roundId w.winnerName = some resp →
      (applyEvent ctx st2 (HolderEvent.synthesisComplete i sink)).dispatched =
        true ∧
      (applyEvent ctx st2 (HolderEvent.synthesisComplete i sink)).pending =
        none ∧
      (applyEvent ctx st2 (HolderEvent.synthesisComplete i sink)).dispatchLog =
        st2.dispatchLog ++
          [(e2.chatId, synthesisFoundCtx w resp ++ "\n\n" ++ e2.text,
            e2.userId)]) ∧
    (∀ (st2 : HolderState) (e2 : PendingEntry) (i : Nat)
        (sink : List SummaryRow),
      st2.pending = some e2 → st2.dispatched = false →
      st2.synthWaits.get? i = some w →
      waitForResponseSummary sink w.roundId w.winnerName = none →
      (applyEvent ctx st2 (HolderEvent.synthesisComplete i sink)).dispatched =
        true ∧
      (applyEvent ctx st2 (HolderEvent.synthesisComplete i sink)).pending =
        none ∧
      (applyEvent ctx st2 (HolderEvent.synthesisComplete i sink)).dispatchLog =
        st2.dispatchLog ++
          [(e2.chatId, synthesisFallbackCtx w ++ "\n\n" ++ e2.text,
            e2.userId)]) := by
  refine ⟨?_, ?_, ?_⟩
  · simp [applyEvent, hp, htrig, hw]
  · intro st2 e2 i sink resp hp2 hd2 hget hfound
    rw [List.get?_eq_getElem?] at hget
    simp [applyEvent, hget, hp2, hd2, hfound]
  · intro st2 e2 i sink hp2 hd2 hget hnone
    rw [List.get?_eq_getElem?] at hget
    simp [applyEvent, hget, hp2, hd2, hnone]

theorem synthesis_wait_behavior_witness :
    (({ processed := true, contentSeen := true,
        pending := some ⟨"c1", "hello", "u1", some TimerKind.backstop⟩,
        dispatched := false, synthWaits := [], dispatchLog := [] }
        : HolderState).pending =
      some ⟨"c1", "hello", "u1", some TimerKind.backstop⟩) ∧
    ((⟨some "r1", some "m1", false, none, false, none, none,
        some ⟨some "r1", "alice", ⟨"a", 1/2, [], true, none⟩,
          ⟨"b", 1/2, [], true, none⟩⟩⟩ : DispatchDecision).triggerMessageId =
      some "m1") ∧
    (applyEvent ⟨"bob", "m1", "c1", "hello", "u1"⟩
      { processed := true, contentSeen := true,
        pending := some ⟨"c1", "hello", "u1", some TimerKind.backstop⟩,
        dispatched := false, synthWaits := [], dispatchLog := [] }
      (HolderEvent.decision
        ⟨some "r1", some "m1", false, none, false, none, none,
          some ⟨some "r1", "alice", ⟨"a", 1/2, [], true, none⟩,
            ⟨"b", 1/2, [], true, none⟩⟩⟩)).pending =
      some ⟨"c1", "hello", "u1", none⟩ ∧
    (applyEvent ⟨"bob", "m1", "c1", "hello", "u1"⟩
      { processed := true, contentSeen := true,
        pending := some ⟨"c1", "hello", "u1", none⟩,
        dispatched := false,
        synthWaits := [⟨some "r1", "alice", ⟨"a", 1/2, [], true, none⟩,
          ⟨"b", 1/2, [], true, none⟩⟩],
        dispatchLog := [] }
      (HolderEvent.synthesisComplete 0 [⟨"r1", "alice", "winner reply"⟩])).dispatched =
      true :=
  ⟨rfl, rfl,
    ((synthesis_wait_behavior ⟨"bob", "m1", "c1", "hello", "u1"⟩
      { processed := true, contentSeen := true,
        pending := some ⟨"c1", "hello", "u1", some TimerKind.backstop⟩,
        dispatched := false, synthWaits := [], dispatchLog := [] }
      ⟨some "r1", some "m1", false, none, false, none, none,
        some ⟨some "r1", "alice", ⟨"a", 1/2, [], true, none⟩,
          ⟨"b", 1/2, [], true, none⟩⟩⟩
      ⟨"c1", "hello", "u1", some TimerKind.backstop⟩
      ⟨some "r1", "alice", ⟨"a", 1/2, [], true, none⟩,
        ⟨"b", 1/2, [], true, none⟩⟩
      rfl rfl rfl rfl).1).1,
    ((synthesis_wait_behavior ⟨"bob", "m1", "c1", "hello", "u1"⟩
      { processed := true, contentSeen := true,
        pending := some ⟨"c1", "hello", "u1", some TimerKind.backstop⟩,
        dispatched := false, synthWaits := [], dispatchLog := [] }
      ⟨some "r1", some "m1", false, none, false, none, none,
        some ⟨some "r1", "alice", ⟨"a", 1/2, [], true, none⟩,
          ⟨"b", 1/2, [], true, none⟩⟩⟩
      ⟨"c1", "hello", "u1", some TimerKind.backstop⟩
      ⟨some "r1", "alice", ⟨"a", 1/2, [], true, none⟩,
        ⟨"b", 1/2, [], true, none⟩⟩
      rfl rfl rfl rfl).2.1
      { processed := true, contentSeen := true,
        pending := some ⟨"c1", "hello", "u1", none⟩,
        dispatched := false,
        synthWaits := [⟨some "r1", "alice", ⟨"a", 1/2, [], true, none⟩,
          ⟨"b", 1/2, [], true, none⟩⟩],
        dispatchLog := [] }
      ⟨"c1", "hello", "u1", none⟩ 0 [⟨"r1", "alice", "winner reply"⟩]
      "winner reply" rfl rfl rfl rfl).1⟩

theorem stale_quarantine_witness :
    ((⟨1, "bot1", "m1", "pending", 50, none, ⟨"c", "t", "s", "m1"⟩⟩ : PendingRow) ∈
      [(⟨1, "bot1", "m1", "pending", 50, none, ⟨"c", "t", "s", "m1"⟩⟩ : PendingRow)]) ∧
    (∃ r2 ∈ (pollPending "bot1" 100 200 []
        [⟨1, "bot1", "m1", "pending", 50, none, ⟨"c", "t", "s", "m1"⟩⟩]).db,
      r2.rowId = 1 ∧ r2.message_id = "m1" ∧ r2.status = "handled") :=
  ⟨List.mem_singleton.mpr rfl,
    (stale_quarantine "bot1" 100 200 []
        [⟨1, "bot1", "m1", "pending", 50, none, ⟨"c", "t", "s", "m1"⟩⟩]).1 _
      (List.mem_singleton.mpr rfl) rfl rfl (by decide)⟩

theorem generate_micro_proposal_safe_witness :
    (generateMicroProposal (fun _ => some (JVal.obj [("confidence", JVal.num 2)]))
        (some "x \x7b\"confidence\": 2\x7d y") none =
      some (microProposalFromContent
        (fun _ => some (JVal.obj [("confidence", JVal.num 2)]))
        "x \x7b\"confidence\": 2\x7d y")) ∧
    (0 ≤ (microProposalFromContent
        (fun _ => some (JVal.obj [("confidence", JVal.num 2)]))
        "x \x7b\"confidence\": 2\x7d y").confidence ∧
      (microProposalFromContent
        (fun _ => some (JVal.obj [("confidence", JVal.num 2)]))
        "x \x7b\"confidence\": 2\x7d y").confidence ≤ 1) ∧
    (firstBraceMatch "no json at all" = none) ∧
    (microProposalFromContent (fun _ => none) "no json at all" =
      fallbackProposal "no json at all") ∧
    ((microProposalFromContent
        (fun _ => some (JVal.obj [("confidence", JVal.num 2)]))
        "x \x7b\"confidence\": 2\x7d y").confidence = max 0 (min 1 2)) ∧
    ((microProposalFromContent (fun _ => some (JVal.obj [])) "\x7b\x7d").confidence =
      1/2) :=
  ⟨rfl,
    (generate_micro_proposal_safe
        (fun _ => some (JVal.obj [("confidence", JVal.num 2)]))
        (some "x \x7b\"confidence\": 2\x7d y") none).1 _ rfl,
    rfl,
    (generate_micro_proposal_safe (fun _ => none) none none).2.1
      "no json at all" rfl,
    (generate_micro_proposal_safe
        (fun _ => some (JVal.obj [("confidence", JVal.num 2)])) none none).2.2.2.1
      "x \x7b\"confidence\": 2\x7d y" "\x7b\"confidence\": 2\x7d"
      (JVal.obj [("confidence", JVal.num 2)]) 2 rfl rfl rfl,
    (generate_micro_proposal_safe (fun _ => some (JVal.obj [])) none none).2.2.2.2
      "\x7b\x7d" "\x7b\x7d" (JVal.obj []) rfl rfl
      (by intro q h; simp [jGet] at h)⟩

/-- C5: for every message, `doDispatch` is invoked at most once per engine
instance, over every interleaving of fast-path and poll deliveries, the 10 s
backstop, the 8 s defer backup, synthesis-wait completions and failures, and
arbitrary (duplicate or racing) coordination decisions. -/
theorem unique_dispatch (ctx : HolderCtx) (events : List HolderEvent) :
    (runHolder ctx events).dispatchLog.length ≤ 1 := by
  have hfold : ∀ (evs : List HolderEvent) (st : HolderState), HolderInv ctx st →
      HolderInv ctx (evs.foldl (applyEvent ctx) st) := by
    intro evs
    induction evs with
    | nil =>
      intro st h
      exact h
    | cons e es ih =>
      intro st h
      exact ih _ (holderInv_step ctx st e h)
  exact (hfold events {} (holderInv_init ctx)).1

end Dyad
